import Mathlib

/-!
# henderiw-nephio/ipam: the allocation reconciler and the health handler

A shallow embedding of

* `controllers/allocation/alloc_reconciler.go` (`reconciler.Reconcile`),
* `internal/healthhandler/health_handler.go` (`subServer.Check`, `subServer.Watch`),
* `apis/ipam/v1alpha1/LabelKeys.go` (the label keys),

followed by theorems about them.

The collaborators of `Reconcile` (the resource store client, the finalizer helper and the
allocation engine) are fields of the `reconciler` record: each is a function giving the
outcome of the call for the argument it receives.  A run of `Reconcile` yields the list of
collaborator calls in the order they are made, the in-memory resource at the end, and what
the invocation returned.
-/

namespace Ipam

/-! ## Go library pieces used by the sources -/

/-- A Go `error` value that is not nil: the text of `Error()` and whether the store
classifies it as a not-found error (`kerrors.IsNotFound`). -/
structure Error where
  msg : String
  notFound : Bool := false
deriving DecidableEq, Repr

/-- `errors.Wrap` of github.com/pkg/errors: nil stays nil, otherwise the message is put in
front of the cause's text. -/
def errors.Wrap (err : Option Error) (message : String) : Option Error :=
  match err with
  | none => none
  | some e => some { e with msg := message ++ ": " ++ e.msg }

/-- Does `p` start the character sequence `s`. -/
def strings.hasPrefixChars : List Char → List Char → Bool
  | [], _ => true
  | _ :: _, [] => false
  | a :: p, b :: s => a == b && strings.hasPrefixChars p s

/-- Does `substr` occur somewhere within `s`. -/
def strings.containsChars (substr : List Char) : List Char → Bool
  | [] => strings.hasPrefixChars substr []
  | c :: s => strings.hasPrefixChars substr (c :: s) || strings.containsChars substr s

/-- `strings.Contains(s, substr)`: reports whether `substr` is within `s`. -/
def strings.Contains (s substr : String) : Bool :=
  strings.containsChars substr.data s.data

/-- `time.Second`, a `time.Duration` counted in nanoseconds. -/
def time.Second : Nat := 1000000000

/-- A Go map, kept as an association list (the first entry of a key is the live one; the
nil map and the empty map are both `[]`). -/
abbrev GoMap (κ : Type) (β : Type) := List (κ × β)

/-- The two-valued index expression `v, ok := m[k]`. -/
def GoMap.get {κ β : Type} [BEq κ] (m : GoMap κ β) (k : κ) : Option β :=
  List.lookup k m

/-- The assignment `m[k] = v`: replaces the live entry of `k`, or adds one. -/
def GoMap.set {κ β : Type} [BEq κ] : GoMap κ β → κ → β → GoMap κ β
  | [], k, v => [(k, v)]
  | (k', v') :: m, k, v => if k' == k then (k, v) :: m else (k', v') :: GoMap.set m k v

/-- The statement `delete(m, k)`. -/
def GoMap.delete {κ β : Type} [BEq κ] (m : GoMap κ β) (k : κ) : GoMap κ β :=
  m.filter fun e => !(e.1 == k)

/-! ## apis/ipam/v1alpha1 -/

def NephioNetworkInstanceKey : String := "nephio.org/network-instance"
def NephioPrefixLengthKey : String := "nephio.org/prefix-length"
def NephioAddressFamilyKey : String := "nephio.org/address-family"
def NephioIPPrefixNameKey : String := "nephio.org/prefix-name"
def NephioParentNetKey : String := "nephio.org/parent-net"
def NephioParentPrefixLengthKey : String := "nephio.org/parent-prefix-length"
def NephioIPAllocactionNameKey : String := "nephio.org/allocation-name"
def NephioPoolKey : String := "nephio.org/pool"
def NephioGatewayKey : String := "nephio.org/gateway"
def NephioInterfaceKey : String := "nephio.org/interface"
def NephioApplicationPartOfKey : String := "app.kubernetes.io/part-of"
def NephioOriginKey : String := "nephio.org/origin"

/-- Modelled from the spec: the two condition types of an allocation resource (the
conditions file of apis/ipam/v1alpha1 is not among the sources): the meta condition
(did the last reconcile pass run without unexpected fault) and the domain condition. -/
inductive ConditionKind
  | Reconcile
  | Ready
deriving DecidableEq, Repr

/-- Modelled from the spec: the condition values `Reconcile` builds with
`ReconcileSuccess()`, `ReconcileError(err)`, `Ready()`, `Failed(msg)` and `Unknown()`
(the conditions file of apis/ipam/v1alpha1 is not among the sources).  The first two are
values of the meta condition, the last three (Ready / Failed / Unknown) of the domain
condition. -/
inductive Condition
  | ReconcileSuccess
  | ReconcileError (msg : String)
  | Ready
  | Failed (msg : String)
  | Unknown
deriving DecidableEq, Repr

/-- Modelled from the spec: the condition type a condition value belongs to. -/
def Condition.Kind : Condition → ConditionKind
  | .ReconcileSuccess => .Reconcile
  | .ReconcileError _ => .Reconcile
  | .Ready => .Ready
  | .Failed _ => .Ready
  | .Unknown => .Ready

/-- Is the condition a `Failed(msg)` value. -/
def Condition.isFailed : Condition → Bool
  | .Failed _ => true
  | _ => false

/-- Modelled from the spec: the label selector of the allocation spec, a map that carries
the network-instance-name entry (the types file is not among the sources). -/
structure LabelSelector where
  MatchLabels : GoMap String String := []
deriving DecidableEq, Repr

/-- Modelled from the spec: the spec fields of an allocation request that `Reconcile`
reads or writes (the types file is not among the sources). -/
structure IPAllocationSpec where
  Selector : LabelSelector := {}
  Prefix : String := ""
  ParentPrefix : String := ""
deriving DecidableEq, Repr

/-- Modelled from the spec: the allocation request resource: identity, label map, deletion
marker (nullable timestamp), spec and the ordered list of conditions (the types file is not
among the sources). -/
structure IPAllocation where
  Namespace : String := ""
  Name : String := ""
  Labels : GoMap String String := []
  DeletionTimestamp : Option Nat := none
  Spec : IPAllocationSpec := {}
  Conditions : List Condition := []
deriving DecidableEq, Repr

/-- Modelled from the spec: the network instance resource: identity and deletion marker
(the types file is not among the sources). -/
structure NetworkInstance where
  Namespace : String := ""
  Name : String := ""
  DeletionTimestamp : Option Nat := none
deriving DecidableEq, Repr

/-- Modelled from the spec: replacing the condition of the same type, or appending when
the list holds none of that type. -/
def setCondition (cs : List Condition) (c : Condition) : List Condition :=
  if cs.any (fun e => e.Kind == c.Kind) then
    cs.map (fun e => if e.Kind == c.Kind then c else e)
  else
    cs ++ [c]

/-- Modelled from the spec: `cr.SetConditions(c...)`, which sets the supplied conditions
one after the other, replacing any existing condition of the same type. -/
def IPAllocation.SetConditions (cr : IPAllocation) (c : List Condition) : IPAllocation :=
  { cr with Conditions := c.foldl setCondition cr.Conditions }

/-- The condition of the given type held by the resource, if any. -/
def IPAllocation.GetCondition (cr : IPAllocation) (ck : ConditionKind) : Option Condition :=
  cr.Conditions.find? (fun e => e.Kind == ck)

/-- Modelled from the spec: `meta.WasDeleted` (internal/meta is not among the sources):
the resource is deletion-marked when its deletion timestamp is set. -/
def meta.WasDeleted (deletionTimestamp : Option Nat) : Bool :=
  deletionTimestamp.isSome

/-- Modelled from the spec: `resource.IgnoreNotFound` (internal/resource is not among the
sources): nil for a not-found error, the error itself otherwise. -/
def resource.IgnoreNotFound (err : Error) : Option Error :=
  if err.notFound then none else some err

/-! ## controllers/allocation/alloc_reconciler.go -/

def finalizer : String := "ipam.nephio.org/finalizer"
def errGetCr : String := "cannot get cr"
def errUpdateStatus : String := "cannot update status"

/-- `types.NamespacedName`. -/
structure NamespacedName where
  Namespace : String := ""
  Name : String := ""
deriving DecidableEq, Repr

/-- `ctrl.Request`. -/
structure Request where
  NamespacedName : NamespacedName := {}
deriving DecidableEq, Repr

/-- `reconcile.Result`: the requeue directive; `RequeueAfter` is a duration in
nanoseconds. -/
structure Result where
  Requeue : Bool := false
  RequeueAfter : Nat := 0
deriving DecidableEq, Repr

/-- What `AllocateIPPrefix` hands back: two `*string` (nil is `none`) and an error. -/
structure AllocateResponse where
  parentPrefix : Option String
  allocatedPrefix : Option String
  err : Option Error
deriving DecidableEq, Repr

/-- The collaborators of the reconciler.  `Get`, `GetNetworkInstance`, `Update` and
`StatusUpdate` are the store client (`r.Get` on the two resource kinds, `r.Update`,
`r.Status().Update`), `AddFinalizer` and `RemoveFinalizer` are `r.finalizer`,
`AllocateIPPrefix` and `DeAllocateIPPrefix` are `r.Ipam`.  A call that reports an error
yields `some err` (or `Except.error err`).  A call that receives `cr` leaves the fields
of `cr` that `Reconcile` reads afterwards (labels, deletion marker, spec) as they are;
the finalizer list, which only `r.finalizer` touches, is not kept in the resource.
`OriginIPAllocation` is the value of the
constant of that name, which the types file (not among the sources) declares. -/
structure reconciler where
  Get : NamespacedName → Except Error IPAllocation
  GetNetworkInstance : NamespacedName → Except Error NetworkInstance
  Update : IPAllocation → Option Error
  StatusUpdate : IPAllocation → Option Error
  AddFinalizer : IPAllocation → Option Error
  RemoveFinalizer : IPAllocation → Option Error
  AllocateIPPrefix : IPAllocation → AllocateResponse
  DeAllocateIPPrefix : IPAllocation → Option Error
  OriginIPAllocation : String

/-- One call to a collaborator, with the argument it receives. -/
inductive Call
  | Get (key : NamespacedName)
  | DeAllocateIPPrefix (cr : IPAllocation)
  | RemoveFinalizer (cr : IPAllocation)
  | AddFinalizer (cr : IPAllocation)
  | GetNetworkInstance (key : NamespacedName)
  | AllocateIPPrefix (cr : IPAllocation)
  | Update (cr : IPAllocation)
  | StatusUpdate (cr : IPAllocation)
deriving DecidableEq, Repr

/-- Which collaborator operation a call is. -/
inductive CallKind
  | Get
  | DeAllocateIPPrefix
  | RemoveFinalizer
  | AddFinalizer
  | GetNetworkInstance
  | AllocateIPPrefix
  | Update
  | StatusUpdate
deriving DecidableEq, Repr

def Call.kind : Call → CallKind
  | .Get _ => .Get
  | .DeAllocateIPPrefix _ => .DeAllocateIPPrefix
  | .RemoveFinalizer _ => .RemoveFinalizer
  | .AddFinalizer _ => .AddFinalizer
  | .GetNetworkInstance _ => .GetNetworkInstance
  | .AllocateIPPrefix _ => .AllocateIPPrefix
  | .Update _ => .Update
  | .StatusUpdate _ => .StatusUpdate

/-- How an invocation ends: it returns `(ctrl.Result, error)`, or it dereferences a nil
pointer. -/
inductive Outcome
  | returned (res : Result) (err : Option Error)
  | panicked
deriving DecidableEq, Repr

/-- One invocation of `Reconcile`: the collaborator calls in the order they were made, the
in-memory resource `cr` when the invocation ended (`none` when the fetch gave none), and
the outcome. -/
structure Run where
  calls : List Call
  cr : Option IPAllocation
  out : Outcome
deriving DecidableEq, Repr

/-- The statement `return res, errors.Wrap(r.Status().Update(ctx, cr), errUpdateStatus)`
that ends a branch, after the calls `calls`. -/
def reconciler.returnStatusUpdate (r : reconciler) (calls : List Call) (cr : IPAllocation)
    (res : Result) : Run :=
  { calls := calls ++ [Call.StatusUpdate cr]
    cr := some cr
    out := Outcome.returned res (errors.Wrap (r.StatusUpdate cr) errUpdateStatus) }

/-- The test of line 114 on a Deallocate error: true when the error takes the failure
return. -/
def deallocateFails (err : Error) : Bool :=
  !strings.Contains err.msg "not ready" || !strings.Contains err.msg "not found"

/-- The deletion branch of `Reconcile` (lines 110 to 129), entered after the call `calls`. -/
def reconciler.reconcileDelete (r : reconciler) (calls : List Call) (cr : IPAllocation) : Run :=
  let calls := calls ++ [Call.DeAllocateIPPrefix cr]
  let failure : Option Error :=
    match r.DeAllocateIPPrefix cr with
    | some err => if deallocateFails err then some err else none
    | none => none
  match failure with
  | some err =>
    let cr := cr.SetConditions [Condition.ReconcileError err.msg, Condition.Unknown]
    r.returnStatusUpdate calls cr {}
  | none =>
    let calls := calls ++ [Call.RemoveFinalizer cr]
    match r.RemoveFinalizer cr with
    | some err =>
      let cr := cr.SetConditions [Condition.ReconcileError err.msg, Condition.Unknown]
      r.returnStatusUpdate calls cr { Requeue := true }
    | none =>
      { calls := calls, cr := some cr, out := Outcome.returned { Requeue := false } none }

/-- The part of `Reconcile` from the Allocate call on (lines 175 to 201), entered after
the calls `calls` with the origin label stamped on `cr`. -/
def reconciler.reconcileAllocate (r : reconciler) (calls : List Call) (cr : IPAllocation) : Run :=
  let calls := calls ++ [Call.AllocateIPPrefix cr]
  let resp := r.AllocateIPPrefix cr
  match resp.err with
  | some err =>
    let cr := cr.SetConditions [Condition.ReconcileSuccess, Condition.Failed err.msg]
    r.returnStatusUpdate calls cr { RequeueAfter := 5 * time.Second }
  | none =>
    if cr.Spec.Prefix != "" then
      match resp.allocatedPrefix with
      | none => { calls := calls, cr := some cr, out := Outcome.panicked }
      | some allocatedPrefix =>
        if allocatedPrefix != cr.Spec.Prefix then
          let cr := cr.SetConditions [Condition.ReconcileSuccess, Condition.Unknown]
          r.returnStatusUpdate calls cr { RequeueAfter := 5 * time.Second }
        else
          let cr := cr.SetConditions [Condition.ReconcileSuccess, Condition.Ready]
          r.returnStatusUpdate calls cr {}
    else
      match resp.parentPrefix with
      | none => { calls := calls, cr := some cr, out := Outcome.panicked }
      | some parentPrefix =>
        let cr := { cr with Spec := { cr.Spec with ParentPrefix := parentPrefix } }
        match resp.allocatedPrefix with
        | none => { calls := calls, cr := some cr, out := Outcome.panicked }
        | some allocatedPrefix =>
          let cr := { cr with Spec := { cr.Spec with Prefix := allocatedPrefix } }
          let calls := calls ++ [Call.Update cr]
          match r.Update cr with
          | some _ =>
            let cr := cr.SetConditions [Condition.ReconcileSuccess, Condition.Unknown]
            r.returnStatusUpdate calls cr { RequeueAfter := 5 * time.Second }
          | none =>
            let cr := cr.SetConditions [Condition.ReconcileSuccess, Condition.Ready]
            r.returnStatusUpdate calls cr {}

/-- The statements of lines 170 to 173: an empty label map is made, then the origin label
is stamped. -/
def reconciler.stampOrigin (r : reconciler) (cr : IPAllocation) : IPAllocation :=
  let cr := if cr.Labels.length == 0 then { cr with Labels := [] } else cr
  { cr with Labels := GoMap.set cr.Labels NephioOriginKey r.OriginIPAllocation }

/-- The branch of `Reconcile` for a resource that is not deletion-marked (lines 131 to
201), entered after the call `calls`. -/
def reconciler.reconcileApply (r : reconciler) (calls : List Call) (cr : IPAllocation) : Run :=
  let calls := calls ++ [Call.AddFinalizer cr]
  match r.AddFinalizer cr with
  | some err =>
    let cr := cr.SetConditions [Condition.ReconcileError err.msg, Condition.Unknown]
    r.returnStatusUpdate calls cr { Requeue := true }
  | none =>
    match GoMap.get cr.Spec.Selector.MatchLabels NephioNetworkInstanceKey with
    | none =>
      let cr := cr.SetConditions
        [Condition.ReconcileSuccess, Condition.Failed "network-instance not found in cr"]
      r.returnStatusUpdate calls cr { RequeueAfter := 5 * time.Second }
    | some niName =>
      let key : NamespacedName := { Namespace := cr.Namespace, Name := niName }
      let calls := calls ++ [Call.GetNetworkInstance key]
      match r.GetNetworkInstance key with
      | .error _ =>
        let cr := cr.SetConditions
          [Condition.ReconcileSuccess, Condition.Failed "network-instance not found"]
        r.returnStatusUpdate calls cr { RequeueAfter := 5 * time.Second }
      | .ok ni =>
        if meta.WasDeleted ni.DeletionTimestamp then
          let cr := cr.SetConditions
            [Condition.ReconcileSuccess, Condition.Failed "network-instance not ready"]
          r.returnStatusUpdate calls cr { RequeueAfter := 5 * time.Second }
        else
          r.reconcileAllocate calls (r.stampOrigin cr)

/-- `reconciler.Reconcile` (lines 95 to 202). -/
def reconciler.Reconcile (r : reconciler) (req : Request) : Run :=
  let calls := [Call.Get req.NamespacedName]
  match r.Get req.NamespacedName with
  | .error err =>
    match resource.IgnoreNotFound err with
    | some e =>
      { calls := calls, cr := none
        out := Outcome.returned {} (errors.Wrap (some e) "cannot get resource") }
    | none => { calls := calls, cr := none, out := Outcome.returned {} none }
  | .ok cr =>
    if meta.WasDeleted cr.DeletionTimestamp then
      r.reconcileDelete calls cr
    else
      r.reconcileApply calls cr

/-- The resources handed to `r.Status().Update` during a run, in order. -/
def Run.statusWrites (run : Run) : List IPAllocation :=
  run.calls.filterMap fun c =>
    match c with
    | Call.StatusUpdate cr => some cr
    | _ => none

/-- The operations of the calls of a run, in order. -/
def Run.kinds (run : Run) : List CallKind :=
  run.calls.map Call.kind

/-! ## internal/healthhandler/health_handler.go -/

/-- `healthpb.HealthCheckResponse_ServingStatus`, an int32 enumeration. -/
abbrev ServingStatus := Int

def HealthCheckResponse_UNKNOWN : ServingStatus := 0
def HealthCheckResponse_SERVING : ServingStatus := 1
def HealthCheckResponse_NOT_SERVING : ServingStatus := 2
def HealthCheckResponse_SERVICE_UNKNOWN : ServingStatus := 3

/-- `healthpb.HealthCheckRequest`. -/
structure HealthCheckRequest where
  Service : String := ""
deriving DecidableEq, Repr

/-- `healthpb.HealthCheckResponse`. -/
structure HealthCheckResponse where
  Status : ServingStatus
deriving DecidableEq, Repr

/-- The gRPC status codes the handler uses. -/
inductive codes
  | NotFound
  | Canceled
deriving DecidableEq, Repr

/-- The error built by `status.Error(c, msg)`. -/
structure StatusError where
  code : codes
  message : String
deriving DecidableEq, Repr

def status.Error (c : codes) (msg : String) : StatusError :=
  { code := c, message := msg }

/-- Modelled from the spec: the state of the broadcast service (the declaration of
`subServer` is not among the sources): the mapping service name to current status, and
the mapping service name to the active subscriptions, each subscription being a stream
(given by its identity) with its single-slot channel (given by the values it holds). -/
structure subServer where
  statusMap : GoMap String ServingStatus := []
  updates : GoMap String (GoMap Nat (List ServingStatus)) := []
deriving DecidableEq, Repr

/-- `subServer.Check` (lines 29 to 41). -/
def subServer.Check (s : subServer) (_req : HealthCheckRequest) :
    Except StatusError HealthCheckResponse :=
  match GoMap.get s.statusMap "" with
  | some servingStatus => .ok { Status := servingStatus }
  | none => .error (status.Error codes.NotFound "unknown service")

/-- The `healthpb.Health_WatchServer` a Watch call serves, as the call sees it: the
identity of the stream, whether the k-th `stream.Send` (counted from 0) reports an error,
and whether the select of the i-th loop iteration (counted from 0) takes the
`stream.Context().Done()` case. -/
structure Stream where
  id : Nat
  sendErr : Nat → Bool
  done : Nat → Bool

/-- The value `Watch` puts on the update channel first (lines 53 to 57). -/
def subServer.initialStatus (s : subServer) (service : String) : ServingStatus :=
  match GoMap.get s.statusMap service with
  | some servingStatus => servingStatus
  | none => HealthCheckResponse_SERVICE_UNKNOWN

/-- The registration of the update channel (lines 60 to 63). -/
def subServer.register (s : subServer) (service : String) (stream : Stream)
    (update : List ServingStatus) : subServer :=
  let updates :=
    match GoMap.get s.updates service with
    | some _ => s.updates
    | none => GoMap.set s.updates service []
  let subs := (GoMap.get updates service).getD []
  { s with updates := GoMap.set updates service (GoMap.set subs stream.id update) }

/-- The deferred function (lines 64 to 68). -/
def subServer.deregister (s : subServer) (service : String) (stream : Stream) : subServer :=
  match GoMap.get s.updates service with
  | some subs => { s with updates := GoMap.set s.updates service (GoMap.delete subs stream.id) }
  | none => s

/-- The loop of `Watch` (lines 71 to 88) over `received`, the values the update channel
yields in order; `i` counts the loop iterations, `sent` holds the messages sent so far.
It gives the messages sent when the loop is left.  The loop is left through one of the two
`return` statements (both with the Canceled error); once `received` is used up the select
waits for the Done case, the only one that can still fire. -/
def watchLoop (stream : Stream) :
    ServingStatus → List ServingStatus → Nat → List HealthCheckResponse →
      List HealthCheckResponse
  | _, [], _, sent => sent
  | lastSentStatus, servingStatus :: received, i, sent =>
    if stream.done i then sent
    else if lastSentStatus == servingStatus then
      watchLoop stream lastSentStatus received (i + 1) sent
    else if stream.sendErr sent.length then sent
    else watchLoop stream servingStatus received (i + 1) (sent ++ [{ Status := servingStatus }])

/-- What a Watch call does: the server state once the channel is registered, the messages
handed to `stream.Send` with success, the server state after the deferred function, and
the error returned. -/
structure WatchRun where
  registered : subServer
  sent : List HealthCheckResponse
  final : subServer
  err : StatusError
deriving DecidableEq, Repr

/-- `subServer.Watch` (lines 44 to 89).  `later` holds the values that reach the update
channel after the initial one (put there by SetStatus, which is not among the sources), in
the order the loop receives them; no other call changes the server state while this one
runs. -/
def subServer.Watch (s : subServer) (_req : HealthCheckRequest) (stream : Stream)
    (later : List ServingStatus) : WatchRun :=
  let service := ""
  let update := [s.initialStatus service]
  let s := s.register service stream update
  let sent := watchLoop stream (-1) (update ++ later) 0 []
  { registered := s
    sent := sent
    final := s.deregister service stream
    err := status.Error codes.Canceled "Stream has ended." }

/-! ## Observations on a run of Reconcile -/

/-- How controller-runtime reads the return value of `Reconcile`: the request is queued
again on a non-nil error, on a positive `RequeueAfter` and on `Requeue`. -/
def Outcome.requeues : Outcome → Bool
  | .returned res err => err.isSome || decide (0 < res.RequeueAfter) || res.Requeue
  | .panicked => false

/-- The deletion of `cr` completes: Deallocate succeeds or its error passes the test of
line 114, and RemoveFinalizer succeeds. -/
def reconciler.deletionCompletes (r : reconciler) (cr : IPAllocation) : Bool :=
  meta.WasDeleted cr.DeletionTimestamp &&
    (match r.DeAllocateIPPrefix cr with
      | some err => !deallocateFails err
      | none => true) &&
    (r.RemoveFinalizer cr).isNone

/-- The resource a call hands to its collaborator, for the calls that take one. -/
def Call.resource : Call → Option IPAllocation
  | .Get _ => none
  | .GetNetworkInstance _ => none
  | .DeAllocateIPPrefix cr => some cr
  | .RemoveFinalizer cr => some cr
  | .AddFinalizer cr => some cr
  | .AllocateIPPrefix cr => some cr
  | .Update cr => some cr
  | .StatusUpdate cr => some cr

/-- The run ends the way the dependency checks of lines 140 to 168 end it: one status
write, carrying the domain condition `Failed msg` beside the meta condition success, a
requeue after five seconds in the result, and no Allocate call. -/
def reconciler.failsWithFixedDelay (r : reconciler) (run : Run) (msg : String) : Prop :=
  ∃ written, run.statusWrites = [written] ∧
    written.GetCondition ConditionKind.Ready = some (Condition.Failed msg) ∧
    written.GetCondition ConditionKind.Reconcile = some Condition.ReconcileSuccess ∧
    run.out = Outcome.returned { Requeue := false, RequeueAfter := 5 * time.Second }
      (errors.Wrap (r.StatusUpdate written) errUpdateStatus) ∧
    CallKind.AllocateIPPrefix ∉ run.kinds

/-! ## Concrete inputs -/

/-- An allocation request that selects the network instance `vpc-1`. -/
def exampleCr : IPAllocation :=
  { Namespace := "default"
    Name := "alloc-1"
    Spec := { Selector := { MatchLabels := [(NephioNetworkInstanceKey, "vpc-1")] } } }

/-- The same request, deletion-marked. -/
def exampleDeletedCr : IPAllocation :=
  { exampleCr with DeletionTimestamp := some 1 }

/-- The same request without the network-instance entry in its selector. -/
def exampleNoSelectorCr : IPAllocation :=
  { exampleCr with Spec := {} }

/-- The same request with spec.prefix pre-set to `10.0.0.0/24`. -/
def examplePresetCr : IPAllocation :=
  { exampleCr with Spec := { exampleCr.Spec with Prefix := "10.0.0.0/24" } }

/-- A reconciler whose store holds `cr` and a live network instance, whose collaborators
all succeed and whose engine allocates `10.0.0.1/32` out of `10.0.0.0/24`. -/
def exampleReconciler (cr : IPAllocation) : reconciler where
  Get := fun _ => .ok cr
  GetNetworkInstance := fun key => .ok { Namespace := key.Namespace, Name := key.Name }
  Update := fun _ => none
  StatusUpdate := fun _ => none
  AddFinalizer := fun _ => none
  RemoveFinalizer := fun _ => none
  AllocateIPPrefix := fun _ =>
    { parentPrefix := some "10.0.0.0/24", allocatedPrefix := some "10.0.0.1/32", err := none }
  DeAllocateIPPrefix := fun _ => none
  OriginIPAllocation := "ipallocation"

/-- The store holds a deletion-marked request and Deallocate reports `msg`. -/
def deallocateErrorReconciler (msg : String) : reconciler :=
  { exampleReconciler exampleDeletedCr with DeAllocateIPPrefix := fun _ => some { msg := msg } }

/-- The store holds the request with spec.prefix `10.0.0.0/24`, the engine answers
`10.0.1.0/24`. -/
def mismatchReconciler : reconciler :=
  { exampleReconciler examplePresetCr with
    AllocateIPPrefix := fun _ =>
      { parentPrefix := some "10.0.0.0/16", allocatedPrefix := some "10.0.1.0/24", err := none } }

/-- The store holds the example request but not its network instance. -/
def missingInstanceReconciler : reconciler :=
  { exampleReconciler exampleCr with
    GetNetworkInstance := fun _ => .error { msg := "not found", notFound := true } }

/-- The store holds the example request and its network instance, deletion-marked. -/
def deletedInstanceReconciler : reconciler :=
  { exampleReconciler exampleCr with
    GetNetworkInstance := fun key =>
      .ok { Namespace := key.Namespace, Name := key.Name, DeletionTimestamp := some 1 } }

/-- The store holds a deletion-marked request and the finalizer removal fails. -/
def removeFinalizerFailsReconciler : reconciler :=
  { exampleReconciler exampleDeletedCr with
    RemoveFinalizer := fun _ => some { msg := "conflict" } }

/-- The store holds the example request and rejects the spec update. -/
def updateFailsReconciler : reconciler :=
  { exampleReconciler exampleCr with Update := fun _ => some { msg := "conflict" } }

/-- A stream that is never cancelled and whose sends all succeed. -/
def exampleStream : Stream :=
  { id := 1, sendErr := fun _ => false, done := fun _ => false }

/-- The store holds the example request and the finalizer add fails. -/
def addFinalizerFailsReconciler : reconciler :=
  { exampleReconciler exampleCr with AddFinalizer := fun _ => some { msg := "conflict" } }

/-- The store holds the example request and the engine reports "pool exhausted". -/
def allocateFailsReconciler : reconciler :=
  { exampleReconciler exampleCr with
    AllocateIPPrefix := fun _ =>
      { parentPrefix := none, allocatedPrefix := none, err := some { msg := "pool exhausted" } } }

/-- The fetch of the request reports `err`. -/
def fetchErrorReconciler (err : Error) : reconciler :=
  { exampleReconciler exampleCr with Get := fun _ => .error err }

/-- The example request as a fully successful first reconcile leaves it: origin label
stamped, both prefixes persisted, conditions success and Ready. -/
def exampleReadyCr : IPAllocation :=
  { exampleCr with
    Labels := [(NephioOriginKey, "ipallocation")]
    Spec := { exampleCr.Spec with ParentPrefix := "10.0.0.0/24", Prefix := "10.0.0.1/32" }
    Conditions := [Condition.ReconcileSuccess, Condition.Ready] }

/-! ## Lemmas -/

theorem hasPrefixChars_iff (p s : List Char) : strings.hasPrefixChars p s = true ↔ p <+: s := by
  induction p generalizing s with
  | nil => simp [strings.hasPrefixChars]
  | cons a p ih =>
    cases s with
    | nil => simp [strings.hasPrefixChars]
    | cons b s => simp [strings.hasPrefixChars, ih, List.cons_prefix_cons]

theorem containsChars_iff (substr s : List Char) :
    strings.containsChars substr s = true ↔ substr <:+: s := by
  induction s with
  | nil => simp [strings.containsChars, hasPrefixChars_iff]
  | cons c s ih =>
    simp [strings.containsChars, hasPrefixChars_iff, ih, List.infix_cons_iff]

/-- The substring test holds exactly when the characters of `substr` occur as a block
within those of `s`. -/
theorem Contains_iff (s substr : String) :
    strings.Contains s substr = true ↔ substr.data <:+: s.data :=
  containsChars_iff substr.data s.data

theorem find_map_replace (cs : List Condition) (c : Condition) (k : ConditionKind) :
    (cs.map (fun e => if e.Kind == c.Kind then c else e)).find? (fun e => e.Kind == k) =
      if c.Kind = k then (if cs.any (fun e => e.Kind == c.Kind) then some c else none)
      else cs.find? (fun e => e.Kind == k) := by
  induction cs with
  | nil => simp
  | cons a cs ih =>
    rw [List.map_cons]
    by_cases hak : a.Kind = c.Kind
    · have h1 : (if (a.Kind == c.Kind) = true then c else a) = c := by simp [hak]
      rw [h1]
      by_cases hck : c.Kind = k
      · rw [List.find?_cons_of_pos _ (by simp [hck]), if_pos hck, if_pos (by simp [hak])]
      · rw [List.find?_cons_of_neg _ (by simp [hck]), ih, if_neg hck, if_neg hck,
          List.find?_cons_of_neg _ (by simp [hak, hck])]
    · have h1 : (if (a.Kind == c.Kind) = true then c else a) = a := by simp [hak]
      rw [h1]
      by_cases hk : a.Kind = k
      · have hck : ¬ c.Kind = k := fun h => hak (hk.trans h.symm)
        rw [List.find?_cons_of_pos _ (by simp [hk]), if_neg hck,
          List.find?_cons_of_pos _ (by simp [hk])]
      · rw [List.find?_cons_of_neg _ (by simp [hk]), ih]
        by_cases hck : c.Kind = k
        · rw [if_pos hck, if_pos hck]
          simp [hak]
        · rw [if_neg hck, if_neg hck, List.find?_cons_of_neg _ (by simp [hk])]

theorem find_setCondition (cs : List Condition) (c : Condition) (k : ConditionKind) :
    (setCondition cs c).find? (fun e => e.Kind == k) =
      if c.Kind = k then some c else cs.find? (fun e => e.Kind == k) := by
  unfold setCondition
  by_cases hany : cs.any (fun e => e.Kind == c.Kind) = true
  · rw [if_pos hany, find_map_replace, hany]
    simp
  · rw [if_neg hany, List.find?_append]
    by_cases hck : c.Kind = k
    · have hnone : cs.find? (fun e => e.Kind == k) = none := by
        rw [List.find?_eq_none]
        intro e he
        have := hany
        simp only [List.any_eq_true, not_exists, not_and] at this
        simpa [hck] using this e he
      simp [hnone, hck]
    · simp [hck]

theorem getCondition_setConditions (cr : IPAllocation) (m d : Condition)
    (hm : m.Kind = ConditionKind.Reconcile) (hd : d.Kind = ConditionKind.Ready) :
    (cr.SetConditions [m, d]).GetCondition ConditionKind.Ready = some d ∧
    (cr.SetConditions [m, d]).GetCondition ConditionKind.Reconcile = some m := by
  simp [IPAllocation.SetConditions, IPAllocation.GetCondition, find_setCondition, hm, hd]

theorem wrap_eq_none (e : Option Error) (m : String) : errors.Wrap e m = none ↔ e = none := by
  cases e <;> simp [errors.Wrap]

theorem getCondition_Ready (cr : IPAllocation) (m d : Condition)
    (hm : m.Kind = ConditionKind.Reconcile) (hd : d.Kind = ConditionKind.Ready) :
    (cr.SetConditions [m, d]).GetCondition ConditionKind.Ready = some d :=
  (getCondition_setConditions cr m d hm hd).1

theorem getCondition_Reconcile (cr : IPAllocation) (m d : Condition)
    (hm : m.Kind = ConditionKind.Reconcile) (hd : d.Kind = ConditionKind.Ready) :
    (cr.SetConditions [m, d]).GetCondition ConditionKind.Reconcile = some m :=
  (getCondition_setConditions cr m d hm hd).2

@[simp] theorem setConditions_Spec (cr : IPAllocation) (c : List Condition) :
    (cr.SetConditions c).Spec = cr.Spec := rfl

@[simp] theorem stampOrigin_Spec (r : reconciler) (cr : IPAllocation) :
    (r.stampOrigin cr).Spec = cr.Spec := by
  unfold reconciler.stampOrigin
  split <;> rfl

theorem watchLoop_extends (stream : Stream) (received : List ServingStatus) :
    ∀ (lastSentStatus : ServingStatus) (i : Nat) (sent : List HealthCheckResponse),
      ∃ rest, watchLoop stream lastSentStatus received i sent = sent ++ rest := by
  induction received with
  | nil => intro _ _ sent; exact ⟨[], by simp [watchLoop]⟩
  | cons v received ih =>
    intro lastSentStatus i sent
    unfold watchLoop
    split
    · exact ⟨[], by simp⟩
    · split
      · exact ih lastSentStatus (i + 1) sent
      · split
        · exact ⟨[], by simp⟩
        · obtain ⟨rest, hrest⟩ := ih v (i + 1) (sent ++ [{ Status := v }])
          exact ⟨{ Status := v } :: rest, by simp [hrest]⟩

theorem destutter'_head_tail (a : ServingStatus) (l : List ServingStatus) :
    List.destutter' (fun x y => x ≠ y) a l = a :: (List.destutter' (fun x y => x ≠ y) a l).tail := by
  induction l generalizing a with
  | nil => rfl
  | cons b l ih =>
    by_cases h : a ≠ b
    · rw [List.destutter'_cons_pos _ h]
      rfl
    · rw [List.destutter'_cons_neg _ h]
      exact ih a

theorem watchLoop_collapse (stream : Stream) (hdone : ∀ i, stream.done i = false)
    (hsend : ∀ k, stream.sendErr k = false) (received : List ServingStatus) :
    ∀ (lastSentStatus : ServingStatus) (i : Nat) (sent : List HealthCheckResponse),
      watchLoop stream lastSentStatus received i sent =
        sent ++ ((List.destutter' (fun x y => x ≠ y) lastSentStatus received).tail).map
          fun v => { Status := v } := by
  induction received with
  | nil => intro _ _ sent; simp [watchLoop]
  | cons v received ih =>
    intro lastSentStatus i sent
    unfold watchLoop
    by_cases h : lastSentStatus = v
    · have hn : ¬ lastSentStatus ≠ v := fun hne => hne h
      rw [List.destutter'_cons_neg _ hn]
      simp [hdone, h, ih]
    · rw [List.destutter'_cons_pos _ h, List.tail_cons, destutter'_head_tail v received]
      simp [hdone, hsend, h, ih]

theorem get_set_self (m : GoMap String String) (k v : String) :
    GoMap.get (GoMap.set m k v) k = some v := by
  induction m with
  | nil => simp [GoMap.set, GoMap.get, List.lookup]
  | cons e m ih =>
    obtain ⟨k', v'⟩ := e
    by_cases h : k' = k
    · simp [GoMap.set, GoMap.get, List.lookup, h]
    · have hb : (k == k') = false := by simpa using fun hk : k = k' => h hk.symm
      have hb' : (k' == k) = false := by simpa using h
      simp only [GoMap.set, GoMap.get, List.lookup, hb, hb', Bool.false_eq_true, if_false]
      exact ih

theorem get_set_other (m : GoMap String String) (k v k' : String) (hk : k' ≠ k) :
    GoMap.get (GoMap.set m k v) k' = GoMap.get m k' := by
  have hkb : (k' == k) = false := by simpa using hk
  induction m with
  | nil => simp [GoMap.set, GoMap.get, List.lookup, hkb]
  | cons e m ih =>
    obtain ⟨k₀, v₀⟩ := e
    by_cases h : k₀ = k
    · subst h
      simp [GoMap.set, GoMap.get, List.lookup, hkb]
    · have hb : (k₀ == k) = false := by simpa using h
      simp only [GoMap.set, GoMap.get, hb, Bool.false_eq_true, if_false, List.lookup]
      cases hq : k' == k₀
      · exact ih
      · rfl

theorem stampOrigin_Labels (r : reconciler) (cr : IPAllocation) :
    (r.stampOrigin cr).Labels = GoMap.set cr.Labels NephioOriginKey r.OriginIPAllocation := by
  unfold reconciler.stampOrigin
  split
  · rename_i h
    have : cr.Labels = [] := by simpa using h
    simp [this]
  · rfl

theorem setConditions_DeletionTimestamp (cr : IPAllocation) (c : List Condition) :
    (cr.SetConditions c).DeletionTimestamp = cr.DeletionTimestamp := rfl

theorem stampOrigin_DeletionTimestamp (r : reconciler) (cr : IPAllocation) :
    (r.stampOrigin cr).DeletionTimestamp = cr.DeletionTimestamp := by
  unfold reconciler.stampOrigin
  split <;> rfl

/-- What a run that wrote the domain condition Ready tells about the resource written: it
is not deletion-marked, its selector carries the network-instance entry, its meta
condition is success, and its spec.prefix is the allocated prefix of every Allocate call of the run, none of which
reported an error. -/
theorem ready_write_facts (r : reconciler) (req : Request) (written : IPAllocation)
    (hwrite : (r.Reconcile req).statusWrites = [written])
    (hready : written.GetCondition ConditionKind.Ready = some Condition.Ready) :
    meta.WasDeleted written.DeletionTimestamp = false ∧
    (∃ niName,
      GoMap.get written.Spec.Selector.MatchLabels NephioNetworkInstanceKey = some niName) ∧
    (r.Reconcile req).cr = some written ∧
    written.GetCondition ConditionKind.Reconcile = some Condition.ReconcileSuccess ∧
    ∀ stamped, Call.AllocateIPPrefix stamped ∈ (r.Reconcile req).calls →
      (r.AllocateIPPrefix stamped).err = none ∧
      (r.AllocateIPPrefix stamped).allocatedPrefix = some written.Spec.Prefix := by
  revert hwrite hready
  simp only [reconciler.Reconcile, reconciler.reconcileDelete, reconciler.reconcileApply,
    reconciler.reconcileAllocate, reconciler.returnStatusUpdate, Run.statusWrites]
  repeat' split
  all_goals
    intro hwrite
    simp [List.filterMap_append] at hwrite
  all_goals
    subst hwrite
    simp_all [getCondition_Ready, getCondition_Reconcile, Condition.Kind,
      setConditions_DeletionTimestamp, stampOrigin_DeletionTimestamp]

/-! ## The claims -/

/-- C1 (code defect): for a deletion-marked resource, a Deallocate error whose message is
"not found" (it contains "not found" but not "not ready"), and likewise one whose message
is "not ready", is not tolerated: Reconcile writes the status and returns, and never calls
RemoveFinalizer. -/
theorem C1_single_substring_not_tolerated :
    strings.Contains "not found" "not found" = true ∧
    ((deallocateErrorReconciler "not found").Reconcile {}).kinds =
      [CallKind.Get, CallKind.DeAllocateIPPrefix, CallKind.StatusUpdate] ∧
    strings.Contains "not ready" "not ready" = true ∧
    ((deallocateErrorReconciler "not ready").Reconcile {}).kinds =
      [CallKind.Get, CallKind.DeAllocateIPPrefix, CallKind.StatusUpdate] := by
  decide

/-- C2 (counterexample): a deletion-marked resource, Deallocate fails with "boom" and the
status write succeeds: the domain condition written is Unknown, not Failed, and the return
value (empty result, nil error) makes no requeue. -/
theorem C2_counterexample :
    deallocateFails { msg := "boom" } = true ∧
    (((deallocateErrorReconciler "boom").Reconcile {}).statusWrites.map
        fun cr => (cr.GetCondition ConditionKind.Ready).map Condition.isFailed) = [some false] ∧
    ((deallocateErrorReconciler "boom").Reconcile {}).out = Outcome.returned {} none ∧
    ((deallocateErrorReconciler "boom").Reconcile {}).out.requeues = false := by
  decide

/-- C2 (amended): for every deletion-marked resource, when Deallocate returns an error
that takes the failure return (its text lacks "not ready" or lacks "not found"), Reconcile
makes the calls Get, Deallocate and one status write, in this order; the resource written
carries the meta condition ReconcileError with the error's text and the domain condition
Unknown; the error returned is the wrapped error of the status write, hence non-nil when
the status write fails.  The result value is left open. -/
theorem C2_deallocate_failure (r : reconciler) (req : Request) (cr : IPAllocation) (err : Error)
    (hget : r.Get req.NamespacedName = Except.ok cr)
    (hdel : meta.WasDeleted cr.DeletionTimestamp = true)
    (herr : r.DeAllocateIPPrefix cr = some err)
    (hfail : strings.Contains err.msg "not ready" = false ∨
      strings.Contains err.msg "not found" = false) :
    ∃ written res,
      written = cr.SetConditions [Condition.ReconcileError err.msg, Condition.Unknown] ∧
      (r.Reconcile req).calls =
        [Call.Get req.NamespacedName, Call.DeAllocateIPPrefix cr, Call.StatusUpdate written] ∧
      written.GetCondition ConditionKind.Ready = some Condition.Unknown ∧
      written.GetCondition ConditionKind.Reconcile = some (Condition.ReconcileError err.msg) ∧
      (r.Reconcile req).out =
        Outcome.returned res (errors.Wrap (r.StatusUpdate written) errUpdateStatus) ∧
      (r.StatusUpdate written ≠ none →
        errors.Wrap (r.StatusUpdate written) errUpdateStatus ≠ none) := by
  have hf : deallocateFails err = true := by
    unfold deallocateFails
    rcases hfail with h | h <;> simp [h]
  refine ⟨_, {}, rfl, ?_, ?_, ?_, ?_, ?_⟩
  · simp [reconciler.Reconcile, hget, hdel, reconciler.reconcileDelete, herr, hf,
      reconciler.returnStatusUpdate]
  · exact (getCondition_setConditions cr (Condition.ReconcileError err.msg) Condition.Unknown rfl rfl).1
  · exact (getCondition_setConditions cr (Condition.ReconcileError err.msg) Condition.Unknown rfl rfl).2
  · simp [reconciler.Reconcile, hget, hdel, reconciler.reconcileDelete, herr, hf,
      reconciler.returnStatusUpdate]
  · intro h
    cases hs : r.StatusUpdate _ with
    | none => exact absurd hs h
    | some e => simp [errors.Wrap]

/-- C2, witness: the amended statement at the deletion-marked example request with the
Deallocate error "boom". -/
theorem C2_deallocate_failure_witness :
    (deallocateErrorReconciler "boom").Get ({} : Request).NamespacedName =
      Except.ok exampleDeletedCr ∧
    meta.WasDeleted exampleDeletedCr.DeletionTimestamp = true ∧
    (deallocateErrorReconciler "boom").DeAllocateIPPrefix exampleDeletedCr =
      some { msg := "boom" } ∧
    ∃ written res,
      written = exampleDeletedCr.SetConditions
        [Condition.ReconcileError "boom", Condition.Unknown] ∧
      ((deallocateErrorReconciler "boom").Reconcile {}).calls =
        [Call.Get {}, Call.DeAllocateIPPrefix exampleDeletedCr, Call.StatusUpdate written] ∧
      written.GetCondition ConditionKind.Ready = some Condition.Unknown ∧
      written.GetCondition ConditionKind.Reconcile = some (Condition.ReconcileError "boom") ∧
      ((deallocateErrorReconciler "boom").Reconcile {}).out =
        Outcome.returned res
          (errors.Wrap ((deallocateErrorReconciler "boom").StatusUpdate written)
            errUpdateStatus) ∧
      ((deallocateErrorReconciler "boom").StatusUpdate written ≠ none →
        errors.Wrap ((deallocateErrorReconciler "boom").StatusUpdate written)
          errUpdateStatus ≠ none) :=
  ⟨rfl, rfl, rfl,
    C2_deallocate_failure (deallocateErrorReconciler "boom") {} exampleDeletedCr
      { msg := "boom" } rfl rfl rfl (Or.inl (by decide))⟩

/-- C3 (counterexample): the fetch finds a deletion-marked resource, Deallocate and
RemoveFinalizer succeed: Reconcile returns after the calls Get, Deallocate and
RemoveFinalizer, with no status-write attempt at all. -/
theorem C3_counterexample :
    (exampleReconciler exampleDeletedCr).Get ({} : Request).NamespacedName =
      Except.ok exampleDeletedCr ∧
    ((exampleReconciler exampleDeletedCr).Reconcile {}).kinds =
      [CallKind.Get, CallKind.DeAllocateIPPrefix, CallKind.RemoveFinalizer] ∧
    ((exampleReconciler exampleDeletedCr).Reconcile {}).statusWrites.length = 0 := by
  refine ⟨rfl, ?_, ?_⟩ <;> decide

/-- C3 (amended): for every resource the initial fetch finds and every combination of
outcomes of the collaborator calls, Reconcile makes at most one status-write attempt, and
it makes none exactly when the deletion completes (deletion-marked, Deallocate succeeded
or was tolerated, RemoveFinalizer succeeded) or when the invocation does not return
because Allocate gave a nil prefix together with a nil error; on every other branch it
makes exactly one. -/
theorem C3_status_write_count (r : reconciler) (req : Request) (cr : IPAllocation)
    (hget : r.Get req.NamespacedName = Except.ok cr) :
    (r.Reconcile req).statusWrites.length ≤ 1 ∧
    ((r.Reconcile req).statusWrites.length = 0 ↔
      r.deletionCompletes cr = true ∨ (r.Reconcile req).out = Outcome.panicked) := by
  simp only [reconciler.Reconcile, hget, reconciler.deletionCompletes]
  by_cases hdel : meta.WasDeleted cr.DeletionTimestamp = true
  · simp only [hdel, if_true, reconciler.reconcileDelete]
    cases hde : r.DeAllocateIPPrefix cr with
    | none =>
      cases hrf : r.RemoveFinalizer cr <;>
        simp [reconciler.returnStatusUpdate, Run.statusWrites, List.filterMap_append]
    | some err =>
      by_cases hf : deallocateFails err = true
      · simp [hf, reconciler.returnStatusUpdate, Run.statusWrites, List.filterMap_append]
      · cases hrf : r.RemoveFinalizer cr <;>
          simp [hf, reconciler.returnStatusUpdate, Run.statusWrites, List.filterMap_append]
  · have hdel' : meta.WasDeleted cr.DeletionTimestamp = false := by simpa using hdel
    simp only [hdel', Bool.false_eq_true, if_false, reconciler.reconcileApply,
      reconciler.reconcileAllocate, reconciler.returnStatusUpdate, Run.statusWrites]
    repeat' split
    all_goals simp [List.filterMap_append]

/-- C3, witness: the amended statement at the example request with all collaborators
succeeding. -/
theorem C3_status_write_count_witness :
    (exampleReconciler exampleCr).Get ({} : Request).NamespacedName = Except.ok exampleCr ∧
    (((exampleReconciler exampleCr).Reconcile {}).statusWrites.length ≤ 1 ∧
    (((exampleReconciler exampleCr).Reconcile {}).statusWrites.length = 0 ↔
      (exampleReconciler exampleCr).deletionCompletes exampleCr = true ∨
        ((exampleReconciler exampleCr).Reconcile {}).out = Outcome.panicked)) :=
  ⟨rfl, C3_status_write_count (exampleReconciler exampleCr) {} exampleCr rfl⟩

/-- C4: whenever a run of Reconcile attempts a status write, of the resource `written`,
the invocation returns, and the error it returns is non-nil if and only if that status
write failed. -/
theorem C4_error_iff_status_write_failed (r : reconciler) (req : Request)
    (written : IPAllocation) (h : written ∈ (r.Reconcile req).statusWrites) :
    ∃ res err, (r.Reconcile req).out = Outcome.returned res err ∧
      (err ≠ none ↔ r.StatusUpdate written ≠ none) := by
  revert h
  simp only [reconciler.Reconcile, reconciler.reconcileDelete, reconciler.reconcileApply,
    reconciler.reconcileAllocate, reconciler.returnStatusUpdate, Run.statusWrites]
  repeat' split
  all_goals simp [List.filterMap_append, wrap_eq_none]
  all_goals
    intro h
    subst h
    exact ⟨_, _, ⟨rfl, rfl⟩, not_congr (wrap_eq_none _ _)⟩

/-- C4, witness: the request without the network-instance entry, whose run writes the
status with the Failed condition. -/
theorem C4_error_iff_status_write_failed_witness :
    exampleNoSelectorCr.SetConditions [Condition.ReconcileSuccess,
        Condition.Failed "network-instance not found in cr"] ∈
      ((exampleReconciler exampleNoSelectorCr).Reconcile {}).statusWrites ∧
    ∃ res err,
      ((exampleReconciler exampleNoSelectorCr).Reconcile {}).out =
        Outcome.returned res err ∧
      (err ≠ none ↔
        (exampleReconciler exampleNoSelectorCr).StatusUpdate
          (exampleNoSelectorCr.SetConditions [Condition.ReconcileSuccess,
            Condition.Failed "network-instance not found in cr"]) ≠ none) :=
  ⟨by decide, C4_error_iff_status_write_failed _ {} _ (by decide)⟩

/-- C5: for every deletion-marked resource the fetch finds and every combination of
outcomes, the calls of Reconcile are Get, Deallocate and then either one status write, or
RemoveFinalizer and one status write, or RemoveFinalizer alone; Allocate, the spec Update,
the instance fetch and AddFinalizer are never called. -/
theorem C5_deletion_calls (r : reconciler) (req : Request) (cr : IPAllocation)
    (hget : r.Get req.NamespacedName = Except.ok cr)
    (hdel : meta.WasDeleted cr.DeletionTimestamp = true) :
    ((r.Reconcile req).kinds =
        [CallKind.Get, CallKind.DeAllocateIPPrefix, CallKind.StatusUpdate] ∨
      (r.Reconcile req).kinds =
        [CallKind.Get, CallKind.DeAllocateIPPrefix, CallKind.RemoveFinalizer,
          CallKind.StatusUpdate] ∨
      (r.Reconcile req).kinds =
        [CallKind.Get, CallKind.DeAllocateIPPrefix, CallKind.RemoveFinalizer]) ∧
    CallKind.AllocateIPPrefix ∉ (r.Reconcile req).kinds ∧
    CallKind.Update ∉ (r.Reconcile req).kinds ∧
    CallKind.GetNetworkInstance ∉ (r.Reconcile req).kinds ∧
    CallKind.AddFinalizer ∉ (r.Reconcile req).kinds := by
  simp only [reconciler.Reconcile, hget, hdel, if_true, reconciler.reconcileDelete,
    reconciler.returnStatusUpdate, Run.kinds]
  repeat' split
  all_goals simp [Call.kind]

/-- C5, witness: the deletion-marked example request with RemoveFinalizer failing. -/
theorem C5_deletion_calls_witness :
    removeFinalizerFailsReconciler.Get ({} : Request).NamespacedName =
      Except.ok exampleDeletedCr ∧
    meta.WasDeleted exampleDeletedCr.DeletionTimestamp = true ∧
    (removeFinalizerFailsReconciler.Reconcile {}).kinds =
      [CallKind.Get, CallKind.DeAllocateIPPrefix, CallKind.RemoveFinalizer,
        CallKind.StatusUpdate] ∧
    CallKind.AllocateIPPrefix ∉ (removeFinalizerFailsReconciler.Reconcile {}).kinds :=
  ⟨rfl, rfl, by decide,
    (C5_deletion_calls removeFinalizerFailsReconciler {} exampleDeletedCr rfl rfl).2.1⟩

/-- C6: for every resource whose spec.prefix is non-empty on entry and every outcome of
the collaborator calls, the in-memory resource at the end and every resource handed to a
collaborator keep spec.prefix and spec.parentPrefix as on entry, and no spec Update is
called; and when Allocate was reached and returned, without error, an allocated prefix
different from spec.prefix, the single status write carries the domain condition Unknown
and the result asks for a requeue after 5 seconds. -/
theorem C6_requested_spec_kept (r : reconciler) (req : Request) (cr : IPAllocation)
    (hget : r.Get req.NamespacedName = Except.ok cr) (hpre : cr.Spec.Prefix ≠ "") :
    (∃ final, (r.Reconcile req).cr = some final ∧ final.Spec.Prefix = cr.Spec.Prefix ∧
      final.Spec.ParentPrefix = cr.Spec.ParentPrefix) ∧
    (∀ c ∈ (r.Reconcile req).calls, ∀ x, c.resource = some x →
      x.Spec.Prefix = cr.Spec.Prefix ∧ x.Spec.ParentPrefix = cr.Spec.ParentPrefix) ∧
    CallKind.Update ∉ (r.Reconcile req).kinds ∧
    (∀ stamped allocated, Call.AllocateIPPrefix stamped ∈ (r.Reconcile req).calls →
      (r.AllocateIPPrefix stamped).err = none →
      (r.AllocateIPPrefix stamped).allocatedPrefix = some allocated →
      allocated ≠ cr.Spec.Prefix →
      ∃ written, (r.Reconcile req).statusWrites = [written] ∧
        written.GetCondition ConditionKind.Ready = some Condition.Unknown ∧
        (r.Reconcile req).out =
          Outcome.returned { Requeue := false, RequeueAfter := 5 * time.Second }
            (errors.Wrap (r.StatusUpdate written) errUpdateStatus)) := by
  have hpre' : (cr.Spec.Prefix != "") = true := by simpa using hpre
  simp only [reconciler.Reconcile, hget, reconciler.reconcileDelete, reconciler.reconcileApply,
    reconciler.reconcileAllocate, reconciler.returnStatusUpdate, Run.kinds, Run.statusWrites,
    stampOrigin_Spec, hpre', if_true]
  repeat' split
  all_goals
    refine ⟨?_, ?_, ?_, ?_⟩
    · simp
    · simp [Call.resource]
    · simp [Call.kind]
    · intro stamped allocated hmem herr halloc hne
      simp_all [List.filterMap_append, getCondition_Ready, Condition.Kind]

/-- C6, witness: spec.prefix pre-set to 10.0.0.0/24, the engine answers 10.0.1.0/24. -/
theorem C6_requested_spec_kept_witness :
    mismatchReconciler.Get ({} : Request).NamespacedName = Except.ok examplePresetCr ∧
    examplePresetCr.Spec.Prefix ≠ "" ∧
    (∃ final, (mismatchReconciler.Reconcile {}).cr = some final ∧
      final.Spec.Prefix = "10.0.0.0/24" ∧ final.Spec.ParentPrefix = "") ∧
    (∃ written, (mismatchReconciler.Reconcile {}).statusWrites = [written] ∧
      written.GetCondition ConditionKind.Ready = some Condition.Unknown ∧
      (mismatchReconciler.Reconcile {}).out =
        Outcome.returned { Requeue := false, RequeueAfter := 5 * time.Second }
          (errors.Wrap (mismatchReconciler.StatusUpdate written) errUpdateStatus)) :=
  ⟨rfl, by decide,
    (C6_requested_spec_kept mismatchReconciler {} examplePresetCr rfl (by decide)).1,
    (C6_requested_spec_kept mismatchReconciler {} examplePresetCr rfl (by decide)).2.2.2
      (mismatchReconciler.stampOrigin examplePresetCr) "10.0.1.0/24" (by decide) rfl rfl
      (by decide)⟩

/-- C7: for every resource with empty spec.prefix whose run reaches Allocate, on the
resource `stamped`, with Allocate returning `(parent, allocated)` and no error: the calls
end with Allocate, then the spec Update of the resource carrying spec.parentPrefix =
parent and spec.prefix = allocated, then the status write; no spec Update or status write
comes before; the resource written carries the two prefixes; it carries the domain
condition Ready when the spec Update succeeded, and when the spec Update failed it
carries Unknown and the result asks for a requeue after 5 seconds. -/
theorem C7_first_allocation (r : reconciler) (req : Request)
    (cr stamped : IPAllocation) (parent allocated : String)
    (hget : r.Get req.NamespacedName = Except.ok cr) (hempty : cr.Spec.Prefix = "")
    (hreach : Call.AllocateIPPrefix stamped ∈ (r.Reconcile req).calls)
    (halloc : r.AllocateIPPrefix stamped =
      { parentPrefix := some parent, allocatedPrefix := some allocated, err := none }) :
    ∃ pre persisted written,
      persisted =
        { stamped with Spec := { stamped.Spec with ParentPrefix := parent, Prefix := allocated } } ∧
      (r.Reconcile req).calls =
        pre ++ [Call.AllocateIPPrefix stamped, Call.Update persisted, Call.StatusUpdate written] ∧
      CallKind.Update ∉ pre.map Call.kind ∧ CallKind.StatusUpdate ∉ pre.map Call.kind ∧
      written.Spec.ParentPrefix = parent ∧ written.Spec.Prefix = allocated ∧
      (r.Reconcile req).cr = some written ∧
      (r.Update persisted = none →
        written.GetCondition ConditionKind.Ready = some Condition.Ready) ∧
      (r.Update persisted ≠ none →
        written.GetCondition ConditionKind.Ready = some Condition.Unknown ∧
        (r.Reconcile req).out =
          Outcome.returned { Requeue := false, RequeueAfter := 5 * time.Second }
            (errors.Wrap (r.StatusUpdate written) errUpdateStatus) ∧
        (r.Reconcile req).out.requeues = true) := by
  revert hreach
  have hpre' : (cr.Spec.Prefix != "") = false := by simp [hempty]
  simp only [reconciler.Reconcile, hget, reconciler.reconcileDelete, reconciler.reconcileApply,
    reconciler.reconcileAllocate, reconciler.returnStatusUpdate,
    stampOrigin_Spec, hpre', Bool.false_eq_true, if_false]
  repeat' split
  all_goals
    intro hreach
    simp at hreach
  all_goals
    subst hreach
    simp_all
  all_goals
    refine ⟨[Call.Get req.NamespacedName, Call.AddFinalizer cr, Call.GetNetworkInstance _], _,
      rfl, ?_⟩
    simp [Call.kind, getCondition_Ready, Condition.Kind, Outcome.requeues, time.Second]

/-- C7, witness: the example request with the engine answering (10.0.0.0/24, 10.0.0.1/32)
and the store rejecting the spec update. -/
theorem C7_first_allocation_witness :
    updateFailsReconciler.Get ({} : Request).NamespacedName = Except.ok exampleCr ∧
    exampleCr.Spec.Prefix = "" ∧
    Call.AllocateIPPrefix (updateFailsReconciler.stampOrigin exampleCr) ∈
      (updateFailsReconciler.Reconcile {}).calls ∧
    updateFailsReconciler.AllocateIPPrefix (updateFailsReconciler.stampOrigin exampleCr) =
      { parentPrefix := some "10.0.0.0/24", allocatedPrefix := some "10.0.0.1/32", err := none } ∧
    ∃ pre persisted written,
      persisted =
        { updateFailsReconciler.stampOrigin exampleCr with
          Spec := { (updateFailsReconciler.stampOrigin exampleCr).Spec with
            ParentPrefix := "10.0.0.0/24", Prefix := "10.0.0.1/32" } } ∧
      (updateFailsReconciler.Reconcile {}).calls =
        pre ++ [Call.AllocateIPPrefix (updateFailsReconciler.stampOrigin exampleCr),
          Call.Update persisted, Call.StatusUpdate written] ∧
      CallKind.Update ∉ pre.map Call.kind ∧ CallKind.StatusUpdate ∉ pre.map Call.kind ∧
      written.Spec.ParentPrefix = "10.0.0.0/24" ∧ written.Spec.Prefix = "10.0.0.1/32" ∧
      (updateFailsReconciler.Reconcile {}).cr = some written ∧
      (updateFailsReconciler.Update persisted = none →
        written.GetCondition ConditionKind.Ready = some Condition.Ready) ∧
      (updateFailsReconciler.Update persisted ≠ none →
        written.GetCondition ConditionKind.Ready = some Condition.Unknown ∧
        (updateFailsReconciler.Reconcile {}).out =
          Outcome.returned { Requeue := false, RequeueAfter := 5 * time.Second }
            (errors.Wrap (updateFailsReconciler.StatusUpdate written) errUpdateStatus) ∧
        (updateFailsReconciler.Reconcile {}).out.requeues = true) :=
  ⟨rfl, rfl, by decide, rfl,
    C7_first_allocation updateFailsReconciler {} exampleCr
      (updateFailsReconciler.stampOrigin exampleCr) "10.0.0.0/24" "10.0.0.1/32" rfl rfl
      (by decide) rfl⟩

/-- C8: for every resource that is not deletion-marked and whose finalizer add succeeded:
when the selector has no network-instance entry, when the fetch of the referenced network
instance fails, and when that instance is deletion-marked, Reconcile writes the status
once with the domain condition Failed, returns a requeue after exactly 5 seconds (5 * 10^9
nanoseconds) and never calls Allocate; the messages of the three cases are pairwise
distinct. -/
theorem C8_dependency_checks (r : reconciler) (req : Request) (cr : IPAllocation)
    (hget : r.Get req.NamespacedName = Except.ok cr)
    (hlive : meta.WasDeleted cr.DeletionTimestamp = false)
    (hfin : r.AddFinalizer cr = none) :
    (GoMap.get cr.Spec.Selector.MatchLabels NephioNetworkInstanceKey = none →
      r.failsWithFixedDelay (r.Reconcile req) "network-instance not found in cr") ∧
    (∀ niName err,
      GoMap.get cr.Spec.Selector.MatchLabels NephioNetworkInstanceKey = some niName →
      r.GetNetworkInstance { Namespace := cr.Namespace, Name := niName } = Except.error err →
      r.failsWithFixedDelay (r.Reconcile req) "network-instance not found") ∧
    (∀ niName ni,
      GoMap.get cr.Spec.Selector.MatchLabels NephioNetworkInstanceKey = some niName →
      r.GetNetworkInstance { Namespace := cr.Namespace, Name := niName } = Except.ok ni →
      meta.WasDeleted ni.DeletionTimestamp = true →
      r.failsWithFixedDelay (r.Reconcile req) "network-instance not ready") ∧
    "network-instance not found in cr" ≠ "network-instance not found" ∧
    "network-instance not found in cr" ≠ "network-instance not ready" ∧
    "network-instance not found" ≠ "network-instance not ready" ∧
    5 * time.Second = 5000000000 := by
  refine ⟨?_, ?_, ?_, by decide, by decide, by decide, by decide⟩
  · intro hsel
    simp [reconciler.failsWithFixedDelay, reconciler.Reconcile, hget, hlive,
      reconciler.reconcileApply, hfin, hsel, reconciler.returnStatusUpdate, Run.statusWrites,
      Run.kinds, Call.kind, getCondition_Ready, getCondition_Reconcile, Condition.Kind,
      time.Second]
  · intro niName err hsel hni
    simp [reconciler.failsWithFixedDelay, reconciler.Reconcile, hget, hlive,
      reconciler.reconcileApply, hfin, hsel, hni, reconciler.returnStatusUpdate,
      Run.statusWrites, Run.kinds, Call.kind, getCondition_Ready, getCondition_Reconcile,
      Condition.Kind, time.Second]
  · intro niName ni hsel hni hdel
    simp [reconciler.failsWithFixedDelay, reconciler.Reconcile, hget, hlive,
      reconciler.reconcileApply, hfin, hsel, hni, hdel, reconciler.returnStatusUpdate,
      Run.statusWrites, Run.kinds, Call.kind, getCondition_Ready, getCondition_Reconcile,
      Condition.Kind, time.Second]

/-- C8, witness: one concrete run for each of the three cases. -/
theorem C8_dependency_checks_witness :
    ((exampleReconciler exampleNoSelectorCr).Get ({} : Request).NamespacedName =
        Except.ok exampleNoSelectorCr ∧
      (exampleReconciler exampleNoSelectorCr).failsWithFixedDelay
        ((exampleReconciler exampleNoSelectorCr).Reconcile {})
        "network-instance not found in cr") ∧
    (missingInstanceReconciler.Get ({} : Request).NamespacedName = Except.ok exampleCr ∧
      missingInstanceReconciler.failsWithFixedDelay (missingInstanceReconciler.Reconcile {})
        "network-instance not found") ∧
    (deletedInstanceReconciler.Get ({} : Request).NamespacedName = Except.ok exampleCr ∧
      deletedInstanceReconciler.failsWithFixedDelay (deletedInstanceReconciler.Reconcile {})
        "network-instance not ready") :=
  ⟨⟨rfl, (C8_dependency_checks (exampleReconciler exampleNoSelectorCr) {} exampleNoSelectorCr
      rfl rfl rfl).1 rfl⟩,
   ⟨rfl, (C8_dependency_checks missingInstanceReconciler {} exampleCr rfl rfl rfl).2.1
      "vpc-1" { msg := "not found", notFound := true } (by decide) rfl⟩,
   ⟨rfl, (C8_dependency_checks deletedInstanceReconciler {} exampleCr rfl rfl rfl).2.2.1
      "vpc-1" { Namespace := "default", Name := "vpc-1", DeletionTimestamp := some 1 }
      (by decide) rfl rfl⟩⟩

/-- C9 (counterexample): with the map holding SERVING for "ipam" only, Check("ipam")
returns NotFound; with the map holding NOT_SERVING for "" only, Check("ipam") returns
NOT_SERVING although the map has no entry for "ipam". -/
theorem C9_counterexample :
    GoMap.get ({ statusMap := [("ipam", HealthCheckResponse_SERVING)] } : subServer).statusMap
      "ipam" = some HealthCheckResponse_SERVING ∧
    subServer.Check { statusMap := [("ipam", HealthCheckResponse_SERVING)] }
      { Service := "ipam" } = Except.error (status.Error codes.NotFound "unknown service") ∧
    GoMap.get ({ statusMap := [("", HealthCheckResponse_NOT_SERVING)] } : subServer).statusMap
      "ipam" = none ∧
    subServer.Check { statusMap := [("", HealthCheckResponse_NOT_SERVING)] }
      { Service := "ipam" } = Except.ok { Status := HealthCheckResponse_NOT_SERVING } := by
  refine ⟨by decide, rfl, by decide, rfl⟩

/-- C9 (amended): for every status map and every service name, Check(name) gives what
Check("") gives: it returns the status the map holds for the empty name "", and returns
NotFound exactly when the map has no entry for the empty name. -/
theorem C9_check_reads_empty_name (s : subServer) (req : HealthCheckRequest) :
    s.Check req = s.Check { Service := "" } ∧
    (∀ servingStatus, s.Check req = Except.ok { Status := servingStatus } ↔
      GoMap.get s.statusMap "" = some servingStatus) ∧
    (s.Check req = Except.error (status.Error codes.NotFound "unknown service") ↔
      GoMap.get s.statusMap "" = none) := by
  refine ⟨rfl, ?_, ?_⟩
  · intro servingStatus
    unfold subServer.Check
    cases GoMap.get s.statusMap "" <;> simp
  · unfold subServer.Check
    cases GoMap.get s.statusMap "" <;> simp

/-- C10 (counterexample): with the map holding SERVING for "" only, a Watch on "ipam"
(no entry) delivers SERVING first, not UNKNOWN; with the map holding NOT_SERVING for
"ipam" only, a Watch on "ipam" delivers SERVICE_UNKNOWN first, which is neither the
entry's status nor UNKNOWN. -/
theorem C10_counterexample :
    GoMap.get ({ statusMap := [("", HealthCheckResponse_SERVING)] } : subServer).statusMap
      "ipam" = none ∧
    ((subServer.Watch { statusMap := [("", HealthCheckResponse_SERVING)] } { Service := "ipam" }
      exampleStream []).sent.head?).map HealthCheckResponse.Status =
        some HealthCheckResponse_SERVING ∧
    HealthCheckResponse_SERVING ≠ HealthCheckResponse_UNKNOWN ∧
    GoMap.get ({ statusMap := [("ipam", HealthCheckResponse_NOT_SERVING)] } : subServer).statusMap
      "ipam" = some HealthCheckResponse_NOT_SERVING ∧
    ((subServer.Watch { statusMap := [("ipam", HealthCheckResponse_NOT_SERVING)] }
      { Service := "ipam" } exampleStream []).sent.head?).map HealthCheckResponse.Status =
        some HealthCheckResponse_SERVICE_UNKNOWN ∧
    HealthCheckResponse_SERVICE_UNKNOWN ≠ HealthCheckResponse_NOT_SERVING ∧
    HealthCheckResponse_SERVICE_UNKNOWN ≠ HealthCheckResponse_UNKNOWN := by
  decide

/-- C10 (amended): for every status map and every service name, the first message a
Watch call delivers, if it delivers one, is the status the map holds for the empty name
"", or SERVICE_UNKNOWN when the map has no entry for ""; it is delivered when the first
select does not take the Done case and the first send succeeds.  The value held for ""
is taken to differ from -1, the initial value of lastSentStatus. -/
theorem C10_watch_first_message (s : subServer) (req : HealthCheckRequest) (stream : Stream)
    (later : List ServingStatus) (hvalid : GoMap.get s.statusMap "" ≠ some (-1)) :
    (∀ m, (s.Watch req stream later).sent.head? = some m →
      m.Status = (GoMap.get s.statusMap "").getD HealthCheckResponse_SERVICE_UNKNOWN) ∧
    (stream.done 0 = false → stream.sendErr 0 = false →
      (s.Watch req stream later).sent.head? =
        some { Status := (GoMap.get s.statusMap "").getD HealthCheckResponse_SERVICE_UNKNOWN }) := by
  have hinit : s.initialStatus "" =
      (GoMap.get s.statusMap "").getD HealthCheckResponse_SERVICE_UNKNOWN := by
    unfold subServer.initialStatus
    cases GoMap.get s.statusMap "" <;> rfl
  have hne : ((-1 : ServingStatus) == s.initialStatus "") = false := by
    rw [hinit]
    cases h : GoMap.get s.statusMap "" with
    | none => decide
    | some v =>
      have : v ≠ -1 := fun hv => hvalid (by rw [h, hv])
      simpa using fun hv => this hv.symm
  obtain ⟨rest, hrest⟩ := watchLoop_extends stream later (s.initialStatus "") 1
    [{ Status := s.initialStatus "" }]
  have hsent : (s.Watch req stream later).sent =
      if stream.done 0 = true then []
      else if stream.sendErr 0 = true then []
      else { Status := s.initialStatus "" } :: rest := by
    simp [subServer.Watch, watchLoop, hne, hrest]
  rw [hsent, ← hinit]
  constructor
  · intro m
    by_cases hd : stream.done 0 = true
    · simp [hd]
    · by_cases hs : stream.sendErr 0 = true
      · simp [hd, hs]
      · intro hm
        simp [hd, hs] at hm
        rw [← hm]
  · intro hd hs
    simp [hd, hs]

/-- C10, witness: the map holds SERVING for "" only and the Watch is on "ipam". -/
theorem C10_watch_first_message_witness :
    GoMap.get ({ statusMap := [("", HealthCheckResponse_SERVING)] } : subServer).statusMap "" ≠
      some (-1) ∧
    (subServer.Watch { statusMap := [("", HealthCheckResponse_SERVING)] } { Service := "ipam" }
      exampleStream []).sent.head? = some { Status := HealthCheckResponse_SERVING } :=
  ⟨by decide,
    (C10_watch_first_message { statusMap := [("", HealthCheckResponse_SERVING)] }
      { Service := "ipam" } exampleStream [] (by decide)).2 rfl rfl⟩

/-- C11: for every finite sequence of status values the update channel yields, with the
stream not cancelled and every send succeeding, the statuses of the messages the loop of
Watch sends are the input with each run of consecutive equal values collapsed to one, and
no two adjacent sent statuses are equal; the same holds for a Watch call, whose received
sequence is the initial status followed by the later values.  The first value is taken to
be a value of the enumeration, so it differs from -1, the initial lastSentStatus. -/
theorem C11_watch_collapses_runs (stream : Stream) (received : List ServingStatus)
    (hdone : ∀ i, stream.done i = false) (hsend : ∀ k, stream.sendErr k = false)
    (hfirst : received.head? ≠ some (-1)) :
    (watchLoop stream (-1) received 0 []).map HealthCheckResponse.Status =
      List.destutter (fun x y => x ≠ y) received ∧
    List.Chain' (fun x y => x ≠ y)
      ((watchLoop stream (-1) received 0 []).map HealthCheckResponse.Status) ∧
    (∀ (s : subServer) (req : HealthCheckRequest) (later : List ServingStatus),
      s.initialStatus "" :: later = received →
      (s.Watch req stream later).sent.map HealthCheckResponse.Status =
        List.destutter (fun x y => x ≠ y) received) := by
  have hloop : (watchLoop stream (-1) received 0 []).map HealthCheckResponse.Status =
      List.destutter (fun x y => x ≠ y) received := by
    rw [watchLoop_collapse stream hdone hsend]
    cases received with
    | nil => rfl
    | cons v received =>
      have hv : (-1 : ServingStatus) ≠ v := by
        intro h
        apply hfirst
        simp [← h]
      rw [List.destutter'_cons_pos _ hv, List.tail_cons, List.destutter_cons']
      simp [Function.comp_def]
  refine ⟨hloop, ?_, ?_⟩
  · rw [hloop]
    exact List.destutter_is_chain' _ received
  · intro s req later hrec
    rw [← hloop, ← hrec]
    rfl

/-- C11, witness: the values 1, 1, 2, 2, 1 are sent as 1, 2, 1. -/
theorem C11_watch_collapses_runs_witness :
    ([1, 1, 2, 2, 1] : List ServingStatus).head? ≠ some (-1) ∧
    (watchLoop exampleStream (-1) [1, 1, 2, 2, 1] 0 []).map HealthCheckResponse.Status =
      [1, 2, 1] :=
  ⟨by decide,
    (C11_watch_collapses_runs exampleStream [1, 1, 2, 2, 1] (fun _ => rfl) (fun _ => rfl)
      (by decide)).1.trans (by decide)⟩

/-- C12: for every resource that is not deletion-marked, when the finalizer add
succeeds, the selector names a network instance that is fetched and not deletion-marked,
Allocate returns an allocated prefix without error, and either spec.prefix is pre-set and
equal to the allocated prefix, or it is empty and the spec Update of the two returned
prefixes succeeds: Reconcile writes the status once with the domain condition Ready and
the meta condition success, and returns the result with no Requeue flag and zero
RequeueAfter, which requests no requeue when the status write succeeds. -/
theorem C12_full_success (r : reconciler) (req : Request) (cr : IPAllocation)
    (niName allocated : String) (ni : NetworkInstance)
    (hget : r.Get req.NamespacedName = Except.ok cr)
    (hlive : meta.WasDeleted cr.DeletionTimestamp = false)
    (hfin : r.AddFinalizer cr = none)
    (hsel : GoMap.get cr.Spec.Selector.MatchLabels NephioNetworkInstanceKey = some niName)
    (hni : r.GetNetworkInstance { Namespace := cr.Namespace, Name := niName } = Except.ok ni)
    (hnilive : meta.WasDeleted ni.DeletionTimestamp = false)
    (herr : (r.AllocateIPPrefix (r.stampOrigin cr)).err = none)
    (halloc : (r.AllocateIPPrefix (r.stampOrigin cr)).allocatedPrefix = some allocated)
    (hcase : (cr.Spec.Prefix ≠ "" ∧ allocated = cr.Spec.Prefix) ∨
      (cr.Spec.Prefix = "" ∧ ∃ parent,
        (r.AllocateIPPrefix (r.stampOrigin cr)).parentPrefix = some parent ∧
        r.Update { r.stampOrigin cr with
          Spec := { (r.stampOrigin cr).Spec with
            ParentPrefix := parent, Prefix := allocated } } = none)) :
    ∃ written, (r.Reconcile req).statusWrites = [written] ∧
      written.GetCondition ConditionKind.Ready = some Condition.Ready ∧
      written.GetCondition ConditionKind.Reconcile = some Condition.ReconcileSuccess ∧
      (r.Reconcile req).out =
        Outcome.returned { Requeue := false, RequeueAfter := 0 }
          (errors.Wrap (r.StatusUpdate written) errUpdateStatus) ∧
      (r.StatusUpdate written = none → (r.Reconcile req).out.requeues = false) := by
  rcases hcase with ⟨hpre, heq⟩ | ⟨hpre, parent, hparent, hupd⟩
  · have hpre' : (cr.Spec.Prefix != "") = true := by simpa using hpre
    simp [reconciler.Reconcile, hget, hlive, reconciler.reconcileApply, hfin, hsel, hni, hnilive,
      reconciler.reconcileAllocate, herr, halloc, hpre', heq, reconciler.returnStatusUpdate,
      Run.statusWrites, getCondition_Ready, getCondition_Reconcile, Condition.Kind,
      Outcome.requeues]
    intro h
    simp [h, errors.Wrap]
  · have hpre' : (cr.Spec.Prefix != "") = false := by simp [hpre]
    simp only [stampOrigin_Spec] at hupd
    simp [reconciler.Reconcile, hget, hlive, reconciler.reconcileApply, hfin, hsel, hni, hnilive,
      reconciler.reconcileAllocate, herr, halloc, hparent, hupd, hpre',
      reconciler.returnStatusUpdate, Run.statusWrites, getCondition_Ready,
      getCondition_Reconcile, Condition.Kind, Outcome.requeues]
    intro h
    simp [h, errors.Wrap]

/-- C12, witness: the first allocation of the example request with all collaborators
succeeding. -/
theorem C12_full_success_witness :
    (exampleReconciler exampleCr).Get ({} : Request).NamespacedName = Except.ok exampleCr ∧
    meta.WasDeleted exampleCr.DeletionTimestamp = false ∧
    (exampleReconciler exampleCr).AllocateIPPrefix
        ((exampleReconciler exampleCr).stampOrigin exampleCr) =
      { parentPrefix := some "10.0.0.0/24", allocatedPrefix := some "10.0.0.1/32", err := none } ∧
    exampleCr.Spec.Prefix = "" ∧
    ∃ written, ((exampleReconciler exampleCr).Reconcile {}).statusWrites = [written] ∧
      written.GetCondition ConditionKind.Ready = some Condition.Ready ∧
      written.GetCondition ConditionKind.Reconcile = some Condition.ReconcileSuccess ∧
      ((exampleReconciler exampleCr).Reconcile {}).out =
        Outcome.returned { Requeue := false, RequeueAfter := 0 }
          (errors.Wrap ((exampleReconciler exampleCr).StatusUpdate written) errUpdateStatus) ∧
      ((exampleReconciler exampleCr).StatusUpdate written = none →
        ((exampleReconciler exampleCr).Reconcile {}).out.requeues = false) :=
  ⟨rfl, rfl, rfl, rfl,
    C12_full_success (exampleReconciler exampleCr) {} exampleCr "vpc-1" "10.0.0.1/32"
      { Namespace := "default", Name := "vpc-1" } rfl rfl rfl (by decide) rfl rfl rfl rfl
      (Or.inr ⟨rfl, "10.0.0.0/24", rfl, rfl⟩)⟩

/-- C13 (counterexample): the example request with a failing finalizer add: the domain
condition written is Unknown, not Failed. -/
theorem C13_counterexample :
    (addFinalizerFailsReconciler.Reconcile {}).kinds =
      [CallKind.Get, CallKind.AddFinalizer, CallKind.StatusUpdate] ∧
    ((addFinalizerFailsReconciler.Reconcile {}).statusWrites.map
        fun cr => cr.GetCondition ConditionKind.Ready) = [some Condition.Unknown] ∧
    ((addFinalizerFailsReconciler.Reconcile {}).statusWrites.map
        fun cr => (cr.GetCondition ConditionKind.Ready).map Condition.isFailed) = [some false] := by
  decide

/-- C13 (amended): for every resource that is not deletion-marked, when AddFinalizer
fails Reconcile makes the calls Get, AddFinalizer and one status write; the resource
written carries the meta condition ReconcileError with the error's text and the domain
condition Unknown; the result has the Requeue flag set, so a requeue is requested; and
Allocate is not called. -/
theorem C13_add_finalizer_failure (r : reconciler) (req : Request) (cr : IPAllocation)
    (err : Error)
    (hget : r.Get req.NamespacedName = Except.ok cr)
    (hlive : meta.WasDeleted cr.DeletionTimestamp = false)
    (hfin : r.AddFinalizer cr = some err) :
    ∃ written,
      written = cr.SetConditions [Condition.ReconcileError err.msg, Condition.Unknown] ∧
      (r.Reconcile req).calls =
        [Call.Get req.NamespacedName, Call.AddFinalizer cr, Call.StatusUpdate written] ∧
      written.GetCondition ConditionKind.Ready = some Condition.Unknown ∧
      written.GetCondition ConditionKind.Reconcile = some (Condition.ReconcileError err.msg) ∧
      (r.Reconcile req).out =
        Outcome.returned { Requeue := true, RequeueAfter := 0 }
          (errors.Wrap (r.StatusUpdate written) errUpdateStatus) ∧
      (r.Reconcile req).out.requeues = true ∧
      CallKind.AllocateIPPrefix ∉ (r.Reconcile req).kinds := by
  refine ⟨_, rfl, ?_⟩
  simp [reconciler.Reconcile, hget, hlive, reconciler.reconcileApply, hfin,
    reconciler.returnStatusUpdate, Run.kinds, Call.kind, getCondition_Ready,
    getCondition_Reconcile, Condition.Kind, Outcome.requeues]

/-- C13, witness: the example request with the finalizer add failing with "conflict". -/
theorem C13_add_finalizer_failure_witness :
    addFinalizerFailsReconciler.Get ({} : Request).NamespacedName = Except.ok exampleCr ∧
    meta.WasDeleted exampleCr.DeletionTimestamp = false ∧
    addFinalizerFailsReconciler.AddFinalizer exampleCr = some { msg := "conflict" } ∧
    ∃ written,
      written = exampleCr.SetConditions [Condition.ReconcileError "conflict", Condition.Unknown] ∧
      (addFinalizerFailsReconciler.Reconcile {}).calls =
        [Call.Get {}, Call.AddFinalizer exampleCr, Call.StatusUpdate written] ∧
      written.GetCondition ConditionKind.Ready = some Condition.Unknown ∧
      written.GetCondition ConditionKind.Reconcile =
        some (Condition.ReconcileError "conflict") ∧
      (addFinalizerFailsReconciler.Reconcile {}).out =
        Outcome.returned { Requeue := true, RequeueAfter := 0 }
          (errors.Wrap (addFinalizerFailsReconciler.StatusUpdate written) errUpdateStatus) ∧
      (addFinalizerFailsReconciler.Reconcile {}).out.requeues = true ∧
      CallKind.AllocateIPPrefix ∉ (addFinalizerFailsReconciler.Reconcile {}).kinds :=
  ⟨rfl, rfl, rfl,
    C13_add_finalizer_failure addFinalizerFailsReconciler {} exampleCr { msg := "conflict" }
      rfl rfl rfl⟩

/-- C14: let a first Reconcile call have written the resource `first` with the domain
condition Ready, after Allocate on `stamped1`, the prefix persisted being non-empty.  For a
second call that fetches `first` unchanged, whose finalizer add succeeds, whose network
instance is still fetched and not deletion-marked, and whose Allocate returns what the
first Allocate returned: the second call writes the status once, with the same meta and
domain conditions as the first (success and Ready), calls no spec Update, leaves the spec
(spec.prefix and spec.parentPrefix included) as the first call persisted it, and returns
the result without Requeue flag and with zero RequeueAfter. -/
theorem C14_second_reconcile (r1 r2 : reconciler) (req : Request)
    (first stamped1 : IPAllocation)
    (h1w : (r1.Reconcile req).statusWrites = [first])
    (h1r : first.GetCondition ConditionKind.Ready = some Condition.Ready)
    (h1a : Call.AllocateIPPrefix stamped1 ∈ (r1.Reconcile req).calls)
    (hne : first.Spec.Prefix ≠ "")
    (h2get : r2.Get req.NamespacedName = Except.ok first)
    (h2fin : r2.AddFinalizer first = none)
    (h2ni : ∀ niName,
      GoMap.get first.Spec.Selector.MatchLabels NephioNetworkInstanceKey = some niName →
      ∃ ni, r2.GetNetworkInstance { Namespace := first.Namespace, Name := niName } =
          Except.ok ni ∧
        meta.WasDeleted ni.DeletionTimestamp = false)
    (h2alloc : r2.AllocateIPPrefix (r2.stampOrigin first) = r1.AllocateIPPrefix stamped1) :
    ∃ second, (r2.Reconcile req).statusWrites = [second] ∧
      (r2.Reconcile req).cr = some second ∧
      second.GetCondition ConditionKind.Ready = first.GetCondition ConditionKind.Ready ∧
      second.GetCondition ConditionKind.Reconcile =
        first.GetCondition ConditionKind.Reconcile ∧
      second.GetCondition ConditionKind.Ready = some Condition.Ready ∧
      second.GetCondition ConditionKind.Reconcile = some Condition.ReconcileSuccess ∧
      CallKind.Update ∉ (r2.Reconcile req).kinds ∧
      second.Spec = first.Spec ∧
      (r2.Reconcile req).out =
        Outcome.returned { Requeue := false, RequeueAfter := 0 }
          (errors.Wrap (r2.StatusUpdate second) errUpdateStatus) ∧
      (r2.StatusUpdate second = none → (r2.Reconcile req).out.requeues = false) := by
  obtain ⟨hlive, ⟨niName, hsel⟩, _, hmeta, hallocs⟩ := ready_write_facts r1 req first h1w h1r
  obtain ⟨herr, halloc⟩ := hallocs stamped1 h1a
  obtain ⟨ni, hni, hnilive⟩ := h2ni niName hsel
  rw [← h2alloc] at herr halloc
  have hpre' : (first.Spec.Prefix != "") = true := by simpa using hne
  rw [h1r, hmeta]
  simp [reconciler.Reconcile, h2get, hlive, reconciler.reconcileApply, h2fin, hsel, hni, hnilive,
    reconciler.reconcileAllocate, herr, halloc, hpre', reconciler.returnStatusUpdate,
    Run.statusWrites, Run.kinds, Call.kind, getCondition_Ready, getCondition_Reconcile,
    Condition.Kind, Outcome.requeues]
  intro h
  simp [h, errors.Wrap]

/-- C14, witness: the example request reconciled twice with all collaborators
succeeding. -/
theorem C14_second_reconcile_witness :
    ((exampleReconciler exampleCr).Reconcile {}).statusWrites = [exampleReadyCr] ∧
    exampleReadyCr.Spec.Prefix ≠ "" ∧
    (exampleReconciler exampleReadyCr).Get ({} : Request).NamespacedName =
      Except.ok exampleReadyCr ∧
    ∃ second, ((exampleReconciler exampleReadyCr).Reconcile {}).statusWrites = [second] ∧
      ((exampleReconciler exampleReadyCr).Reconcile {}).cr = some second ∧
      second.GetCondition ConditionKind.Ready =
        exampleReadyCr.GetCondition ConditionKind.Ready ∧
      second.GetCondition ConditionKind.Reconcile =
        exampleReadyCr.GetCondition ConditionKind.Reconcile ∧
      second.GetCondition ConditionKind.Ready = some Condition.Ready ∧
      second.GetCondition ConditionKind.Reconcile = some Condition.ReconcileSuccess ∧
      CallKind.Update ∉ ((exampleReconciler exampleReadyCr).Reconcile {}).kinds ∧
      second.Spec = exampleReadyCr.Spec ∧
      ((exampleReconciler exampleReadyCr).Reconcile {}).out =
        Outcome.returned { Requeue := false, RequeueAfter := 0 }
          (errors.Wrap ((exampleReconciler exampleReadyCr).StatusUpdate second)
            errUpdateStatus) ∧
      ((exampleReconciler exampleReadyCr).StatusUpdate second = none →
        ((exampleReconciler exampleReadyCr).Reconcile {}).out.requeues = false) :=
  ⟨by decide, by decide, rfl,
    C14_second_reconcile (exampleReconciler exampleCr) (exampleReconciler exampleReadyCr) {}
      exampleReadyCr ((exampleReconciler exampleCr).stampOrigin exampleCr)
      (by decide) (by decide) (by decide) (by decide) rfl rfl
      (fun niName _ => ⟨{ Namespace := "default", Name := niName }, rfl, rfl⟩) rfl⟩

/-- C15: when the initial fetch reports an error, the fetch is the only collaborator call
of Reconcile; for a not-found error it returns the empty result with a nil error (no
requeue), for any other error it returns a non-nil error, the fetch error wrapped with
"cannot get resource". -/
theorem C15_fetch_error (r : reconciler) (req : Request) (err : Error)
    (hget : r.Get req.NamespacedName = Except.error err) :
    (r.Reconcile req).calls = [Call.Get req.NamespacedName] ∧
    (r.Reconcile req).cr = none ∧
    (err.notFound = true →
      (r.Reconcile req).out = Outcome.returned { Requeue := false, RequeueAfter := 0 } none ∧
      (r.Reconcile req).out.requeues = false) ∧
    (err.notFound = false →
      (r.Reconcile req).out =
        Outcome.returned { Requeue := false, RequeueAfter := 0 }
          (some { err with msg := "cannot get resource: " ++ err.msg })) := by
  cases hnf : err.notFound <;>
    simp [reconciler.Reconcile, hget, resource.IgnoreNotFound, hnf, errors.Wrap,
      Outcome.requeues]

/-- C15, witness: a not-found fetch error and a timeout fetch error. -/
theorem C15_fetch_error_witness :
    ((fetchErrorReconciler { msg := "ipallocation not found", notFound := true }).Reconcile
        {}).calls = [Call.Get {}] ∧
    ((fetchErrorReconciler { msg := "ipallocation not found", notFound := true }).Reconcile
        {}).out = Outcome.returned { Requeue := false, RequeueAfter := 0 } none ∧
    ((fetchErrorReconciler { msg := "timeout" }).Reconcile {}).out =
      Outcome.returned { Requeue := false, RequeueAfter := 0 }
        (some { msg := "cannot get resource: timeout" }) :=
  ⟨(C15_fetch_error (fetchErrorReconciler { msg := "ipallocation not found", notFound := true })
      {} _ rfl).1,
    ((C15_fetch_error (fetchErrorReconciler { msg := "ipallocation not found", notFound := true })
      {} _ rfl).2.2.1 rfl).1,
    (C15_fetch_error (fetchErrorReconciler { msg := "timeout" }) {} _ rfl).2.2.2 rfl⟩

/-- C16: for every run of Reconcile that reaches the Allocate call, on the resource
`stamped`, when Allocate returns the error `err`: the status is written once, with the
domain condition Failed carrying the text of `err` and the meta condition success; the
result asks for a requeue after 5 seconds (5 * 10^9 nanoseconds); no spec Update is
called and the spec of the resource written is that of `stamped`. -/
theorem C16_allocate_error (r : reconciler) (req : Request) (stamped : IPAllocation)
    (err : Error)
    (hreach : Call.AllocateIPPrefix stamped ∈ (r.Reconcile req).calls)
    (herr : (r.AllocateIPPrefix stamped).err = some err) :
    ∃ written,
      written = stamped.SetConditions [Condition.ReconcileSuccess, Condition.Failed err.msg] ∧
      (r.Reconcile req).statusWrites = [written] ∧
      written.GetCondition ConditionKind.Ready = some (Condition.Failed err.msg) ∧
      written.GetCondition ConditionKind.Reconcile = some Condition.ReconcileSuccess ∧
      (r.Reconcile req).out =
        Outcome.returned { Requeue := false, RequeueAfter := 5 * time.Second }
          (errors.Wrap (r.StatusUpdate written) errUpdateStatus) ∧
      5 * time.Second = 5000000000 ∧
      CallKind.Update ∉ (r.Reconcile req).kinds ∧
      written.Spec = stamped.Spec := by
  revert hreach
  simp only [reconciler.Reconcile, reconciler.reconcileDelete, reconciler.reconcileApply,
    reconciler.reconcileAllocate, reconciler.returnStatusUpdate, Run.statusWrites, Run.kinds]
  repeat' split
  all_goals
    intro hreach
    simp at hreach
  all_goals
    subst hreach
    simp_all [Call.kind, getCondition_Ready, getCondition_Reconcile, Condition.Kind,
      time.Second]

/-- C16, witness: the example request with the engine reporting "pool exhausted". -/
theorem C16_allocate_error_witness :
    Call.AllocateIPPrefix (allocateFailsReconciler.stampOrigin exampleCr) ∈
      (allocateFailsReconciler.Reconcile {}).calls ∧
    (allocateFailsReconciler.AllocateIPPrefix
      (allocateFailsReconciler.stampOrigin exampleCr)).err = some { msg := "pool exhausted" } ∧
    ∃ written,
      written = (allocateFailsReconciler.stampOrigin exampleCr).SetConditions
        [Condition.ReconcileSuccess, Condition.Failed "pool exhausted"] ∧
      (allocateFailsReconciler.Reconcile {}).statusWrites = [written] ∧
      written.GetCondition ConditionKind.Ready = some (Condition.Failed "pool exhausted") ∧
      written.GetCondition ConditionKind.Reconcile = some Condition.ReconcileSuccess ∧
      (allocateFailsReconciler.Reconcile {}).out =
        Outcome.returned { Requeue := false, RequeueAfter := 5 * time.Second }
          (errors.Wrap (allocateFailsReconciler.StatusUpdate written) errUpdateStatus) ∧
      5 * time.Second = 5000000000 ∧
      CallKind.Update ∉ (allocateFailsReconciler.Reconcile {}).kinds ∧
      written.Spec = (allocateFailsReconciler.stampOrigin exampleCr).Spec :=
  ⟨by decide, rfl,
    C16_allocate_error allocateFailsReconciler {}
      (allocateFailsReconciler.stampOrigin exampleCr) { msg := "pool exhausted" }
      (by decide) rfl⟩

/-- C17: for every deletion-marked resource and every Deallocate error, RemoveFinalizer is
called if and only if the error's text contains both "not ready" and "not found"; in that
case it is called right after Deallocate, with no status write in between; otherwise the
calls are Get, Deallocate and the status write of the failure return, which returns the
empty result with the wrapped status-write error. -/
theorem C17_tolerated_iff_both (r : reconciler) (req : Request) (cr : IPAllocation)
    (err : Error)
    (hget : r.Get req.NamespacedName = Except.ok cr)
    (hdel : meta.WasDeleted cr.DeletionTimestamp = true)
    (herr : r.DeAllocateIPPrefix cr = some err) :
    (CallKind.RemoveFinalizer ∈ (r.Reconcile req).kinds ↔
      (strings.Contains err.msg "not ready" = true ∧
        strings.Contains err.msg "not found" = true)) ∧
    ((strings.Contains err.msg "not ready" = true ∧
        strings.Contains err.msg "not found" = true) →
      ∃ rest, (r.Reconcile req).calls =
        [Call.Get req.NamespacedName, Call.DeAllocateIPPrefix cr, Call.RemoveFinalizer cr] ++
          rest) ∧
    (¬ (strings.Contains err.msg "not ready" = true ∧
        strings.Contains err.msg "not found" = true) →
      (r.Reconcile req).calls =
        [Call.Get req.NamespacedName, Call.DeAllocateIPPrefix cr,
          Call.StatusUpdate
            (cr.SetConditions [Condition.ReconcileError err.msg, Condition.Unknown])] ∧
      (r.Reconcile req).out =
        Outcome.returned { Requeue := false, RequeueAfter := 0 }
          (errors.Wrap
            (r.StatusUpdate
              (cr.SetConditions [Condition.ReconcileError err.msg, Condition.Unknown]))
            errUpdateStatus)) := by
  by_cases hboth : strings.Contains err.msg "not ready" = true ∧
      strings.Contains err.msg "not found" = true
  · have hf : deallocateFails err = false := by
      simp [deallocateFails, hboth.1, hboth.2]
    cases hrf : r.RemoveFinalizer cr <;>
      simp [reconciler.Reconcile, hget, hdel, reconciler.reconcileDelete, herr, hf, hrf,
        reconciler.returnStatusUpdate, Run.kinds, Call.kind, hboth]
  · have hf : deallocateFails err = true := by
      unfold deallocateFails
      by_cases h1 : strings.Contains err.msg "not ready" = true
      · have h2 : strings.Contains err.msg "not found" = false := by
          simpa using fun h => hboth ⟨h1, h⟩
        simp [h2]
      · simp [h1]
    simp [reconciler.Reconcile, hget, hdel, reconciler.reconcileDelete, herr, hf,
      reconciler.returnStatusUpdate, Run.kinds, Call.kind, hboth]

/-- C17, witness: the error "not ready: not found" is tolerated, the error "not found" is
not. -/
theorem C17_tolerated_iff_both_witness :
    (strings.Contains "not ready: not found" "not ready" = true ∧
      strings.Contains "not ready: not found" "not found" = true) ∧
    CallKind.RemoveFinalizer ∈
      ((deallocateErrorReconciler "not ready: not found").Reconcile {}).kinds ∧
    ¬ (strings.Contains "not found" "not ready" = true ∧
      strings.Contains "not found" "not found" = true) ∧
    CallKind.RemoveFinalizer ∉ ((deallocateErrorReconciler "not found").Reconcile {}).kinds :=
  ⟨by decide,
    (C17_tolerated_iff_both (deallocateErrorReconciler "not ready: not found") {}
      exampleDeletedCr { msg := "not ready: not found" } rfl rfl rfl).1.mpr (by decide),
    by decide,
    fun h => absurd
      ((C17_tolerated_iff_both (deallocateErrorReconciler "not found") {}
        exampleDeletedCr { msg := "not found" } rfl rfl rfl).1.mp h) (by decide)⟩

/-- C18: whenever a run of Reconcile hands to the status write a resource whose domain
condition is Ready, the run holds an Allocate call that returned no error and an allocated
prefix equal to the spec.prefix of the resource written, and the meta condition of that
resource is success. -/
theorem C18_ready_only_after_allocation (r : reconciler) (req : Request)
    (written : IPAllocation)
    (hwrite : written ∈ (r.Reconcile req).statusWrites)
    (hready : written.GetCondition ConditionKind.Ready = some Condition.Ready) :
    ∃ stamped allocated,
      Call.AllocateIPPrefix stamped ∈ (r.Reconcile req).calls ∧
      (r.AllocateIPPrefix stamped).err = none ∧
      (r.AllocateIPPrefix stamped).allocatedPrefix = some allocated ∧
      written.Spec.Prefix = allocated ∧
      written.GetCondition ConditionKind.Reconcile = some Condition.ReconcileSuccess := by
  revert hwrite hready
  simp only [reconciler.Reconcile, reconciler.reconcileDelete, reconciler.reconcileApply,
    reconciler.reconcileAllocate, reconciler.returnStatusUpdate, Run.statusWrites]
  repeat' split
  all_goals
    intro hwrite
    simp [List.filterMap_append] at hwrite
  all_goals
    subst hwrite
    simp_all [getCondition_Ready, getCondition_Reconcile, Condition.Kind]

/-- C18, witness: the first allocation of the example request. -/
theorem C18_ready_only_after_allocation_witness :
    ((exampleReconciler exampleCr).Reconcile {}).statusWrites = [exampleReadyCr] ∧
    exampleReadyCr.GetCondition ConditionKind.Ready = some Condition.Ready ∧
    ∃ stamped allocated,
      Call.AllocateIPPrefix stamped ∈ ((exampleReconciler exampleCr).Reconcile {}).calls ∧
      ((exampleReconciler exampleCr).AllocateIPPrefix stamped).err = none ∧
      ((exampleReconciler exampleCr).AllocateIPPrefix stamped).allocatedPrefix =
        some allocated ∧
      exampleReadyCr.Spec.Prefix = allocated ∧
      exampleReadyCr.GetCondition ConditionKind.Reconcile = some Condition.ReconcileSuccess :=
  ⟨by decide, by decide,
    C18_ready_only_after_allocation (exampleReconciler exampleCr) {} exampleReadyCr
      (by decide) (by decide)⟩

/-- C19: a run of Reconcile holds at most one Allocate call; and when it holds one, on the
resource `stamped`, then the fetch found a resource `cr` that is not deletion-marked,
AddFinalizer succeeded, the selector carries the network-instance key, the network
instance it names was fetched and is not deletion-marked, and these calls precede the
Allocate call in this order; `stamped` is `cr` with the origin label stamped: it holds the
origin value under the origin key, every other key reads as in `cr`, and every key
present in `cr` is present in `stamped`. -/
theorem C19_allocate_guarded (r : reconciler) (req : Request) :
    (r.Reconcile req).kinds.count CallKind.AllocateIPPrefix ≤ 1 ∧
    ∀ stamped, Call.AllocateIPPrefix stamped ∈ (r.Reconcile req).calls →
      ∃ cr niName ni rest,
        r.Get req.NamespacedName = Except.ok cr ∧
        meta.WasDeleted cr.DeletionTimestamp = false ∧
        r.AddFinalizer cr = none ∧
        GoMap.get cr.Spec.Selector.MatchLabels NephioNetworkInstanceKey = some niName ∧
        r.GetNetworkInstance { Namespace := cr.Namespace, Name := niName } = Except.ok ni ∧
        meta.WasDeleted ni.DeletionTimestamp = false ∧
        (r.Reconcile req).calls =
          [Call.Get req.NamespacedName, Call.AddFinalizer cr,
            Call.GetNetworkInstance { Namespace := cr.Namespace, Name := niName },
            Call.AllocateIPPrefix stamped] ++ rest ∧
        stamped = r.stampOrigin cr ∧
        GoMap.get stamped.Labels NephioOriginKey = some r.OriginIPAllocation ∧
        (∀ k, k ≠ NephioOriginKey → GoMap.get stamped.Labels k = GoMap.get cr.Labels k) ∧
        (∀ k, (GoMap.get cr.Labels k).isSome = true → (GoMap.get stamped.Labels k).isSome = true) := by
  have hlabels : ∀ cr : IPAllocation,
      GoMap.get (r.stampOrigin cr).Labels NephioOriginKey = some r.OriginIPAllocation ∧
      (∀ k, k ≠ NephioOriginKey →
        GoMap.get (r.stampOrigin cr).Labels k = GoMap.get cr.Labels k) ∧
      (∀ k, (GoMap.get cr.Labels k).isSome = true →
        (GoMap.get (r.stampOrigin cr).Labels k).isSome = true) := by
    intro cr
    rw [stampOrigin_Labels]
    refine ⟨get_set_self _ _ _, fun k hk => get_set_other _ _ _ k hk, fun k hk => ?_⟩
    by_cases h : k = NephioOriginKey
    · rw [h, get_set_self]
      rfl
    · rw [get_set_other _ _ _ k h]
      exact hk
  constructor
  · simp only [reconciler.Reconcile, reconciler.reconcileDelete, reconciler.reconcileApply,
      reconciler.reconcileAllocate, reconciler.returnStatusUpdate, Run.kinds]
    repeat' split
    all_goals simp [Call.kind, List.count_cons]
  · intro stamped
    simp only [reconciler.Reconcile, reconciler.reconcileDelete, reconciler.reconcileApply,
      reconciler.reconcileAllocate, reconciler.returnStatusUpdate]
    repeat' split
    all_goals
      intro hreach
      simp at hreach
    all_goals
      subst hreach
      exact ⟨_, _, _, _, by assumption, by simp_all, by assumption, by assumption, by assumption,
        by simp_all, rfl, rfl, (hlabels _).1, (hlabels _).2.1, (hlabels _).2.2⟩

/-- C19, witness: the first allocation of the example request. -/
theorem C19_allocate_guarded_witness :
    Call.AllocateIPPrefix ((exampleReconciler exampleCr).stampOrigin exampleCr) ∈
      ((exampleReconciler exampleCr).Reconcile {}).calls ∧
    ((exampleReconciler exampleCr).Reconcile {}).kinds.count CallKind.AllocateIPPrefix ≤ 1 ∧
    ∃ cr niName ni rest,
      (exampleReconciler exampleCr).Get ({} : Request).NamespacedName = Except.ok cr ∧
      meta.WasDeleted cr.DeletionTimestamp = false ∧
      (exampleReconciler exampleCr).AddFinalizer cr = none ∧
      GoMap.get cr.Spec.Selector.MatchLabels NephioNetworkInstanceKey = some niName ∧
      (exampleReconciler exampleCr).GetNetworkInstance
        { Namespace := cr.Namespace, Name := niName } = Except.ok ni ∧
      meta.WasDeleted ni.DeletionTimestamp = false ∧
      ((exampleReconciler exampleCr).Reconcile {}).calls =
        [Call.Get {}, Call.AddFinalizer cr,
          Call.GetNetworkInstance { Namespace := cr.Namespace, Name := niName },
          Call.AllocateIPPrefix ((exampleReconciler exampleCr).stampOrigin exampleCr)] ++ rest ∧
      (exampleReconciler exampleCr).stampOrigin exampleCr =
        (exampleReconciler exampleCr).stampOrigin cr ∧
      GoMap.get ((exampleReconciler exampleCr).stampOrigin exampleCr).Labels NephioOriginKey =
        some (exampleReconciler exampleCr).OriginIPAllocation ∧
      (∀ k, k ≠ NephioOriginKey →
        GoMap.get ((exampleReconciler exampleCr).stampOrigin exampleCr).Labels k =
          GoMap.get cr.Labels k) ∧
      (∀ k, (GoMap.get cr.Labels k).isSome = true →
        (GoMap.get ((exampleReconciler exampleCr).stampOrigin exampleCr).Labels k).isSome =
          true) :=
  ⟨by decide, (C19_allocate_guarded (exampleReconciler exampleCr) {}).1,
    (C19_allocate_guarded (exampleReconciler exampleCr) {}).2 _ (by decide)⟩

end Ipam
